import Mathlib

/-!
Shallow embedding of LLMtest/llama_bridge.c

A C string is modelled as the list of its bytes before the terminating NUL,
one `Char` per byte.  The C library functions used by the bridge (`strstr`,
`strchr`, `strncmp`, `memmove`, `strcat`) are modelled by their effect on that
list.  The inference runtime (llama.cpp) and the file system are parameters of
the model: every answer they can give is a field of `Runtime`.  The bytes the
runtime writes for a token may hold NUL bytes; the bridge reads them as a C
string, `c_string`, and counts them all in `response_len`.
-/

set_option autoImplicit false

namespace LlamaBridge

/-! ## C library -/

/-- The C function `strstr(haystack, needle)`: the offset of the first occurrence of `needle`
in `haystack`, `none` for a NULL result. -/
def strstr : List Char → List Char → Option Nat
  | [], needle => if needle.isPrefixOf [] then some 0 else none
  | c :: cs, needle =>
    if needle.isPrefixOf (c :: cs) then some 0
    else (strstr cs needle).map (· + 1)

/-- The C function `strchr(s, c)`: the offset of the first `c` in `s`, `none` for NULL. -/
def strchr : List Char → Char → Option Nat
  | [], _ => none
  | x :: xs, c => if x = c then some 0 else (strchr xs c).map (· + 1)

/-- The C function `strncmp(a, b, n)` on NUL-free strings: 0 exactly when the first `n`
bytes (or the whole strings, when shorter) agree; the sign of a non-zero
result is not used by the bridge, so it is returned as 1. -/
def strncmp (a b : List Char) (n : Nat) : Int :=
  if a.take n = b.take n then 0 else 1

/-- The C string a `char` buffer holds: its bytes before the first NUL. -/
def c_string (buffer : List Char) : List Char :=
  buffer.takeWhile (fun c => c ≠ '\x00')

/-! ## Model-specific configurations -/

/-- The struct `model_config_t`.  The two `float` fields hold the decimal
literal written in the source (`0.1f` is the rational `0.1`); no arithmetic is done on
them by the bridge. -/
structure model_config_t where
  context_size : Int
  batch_size : Int
  temperature : ℚ
  top_k : Int
  top_p : ℚ
  max_tokens : Int
deriving DecidableEq

/-- The function `get_model_config(model_path)`, lines 20-50. -/
def get_model_config (model_path : List Char) : model_config_t :=
  if (strstr model_path "phi-3".toList).isSome || (strstr model_path "Phi-3".toList).isSome then
    { context_size := 256, batch_size := 32, temperature := 0.1,
      top_k := 3, top_p := 0.2, max_tokens := 30 }
  else if (strstr model_path "tinyllama".toList).isSome
      || (strstr model_path "TinyLlama".toList).isSome then
    { context_size := 256, batch_size := 32, temperature := 0.1,
      top_k := 3, top_p := 0.2, max_tokens := 30 }
  else
    { context_size := 256, batch_size := 32, temperature := 0.7,
      top_k := 40, top_p := 0.9, max_tokens := 50 }

/-- The profile of the Phi-3 and TinyLlama branches. -/
def compactProfile : model_config_t :=
  { context_size := 256, batch_size := 32, temperature := 0.1,
    top_k := 3, top_p := 0.2, max_tokens := 30 }

/-- The profile of the final `else` branch. -/
def defaultProfile : model_config_t :=
  { context_size := 256, batch_size := 32, temperature := 0.7,
    top_k := 40, top_p := 0.9, max_tokens := 50 }


/-! ## Response cleaning (lines 241-313 of `run_llama`) -/

/-- The array `special_tokens` of line 245, in source order. -/
def special_tokens : List (List Char) :=
  ["<|im_end|>".toList, "<|end|>".toList, "<|im_start|>".toList,
   "<|system|>".toList, "<|user|>".toList, "<|assistant|>".toList]

/-- The inner `while ((pos = strstr(response, tok)) != NULL) memmove(...)` of
lines 249-252: the first occurrence of `tok` is cut out until `strstr` finds
none.  The first argument bounds the number of rounds. -/
def excise (tok : List Char) : Nat → List Char → List Char
  | 0, response => response
  | fuel + 1, response =>
    match strstr response tok with
    | none => response
    | some pos => excise tok fuel (response.take pos ++ response.drop (pos + tok.length))

/-- The `for` loop of lines 248-253: one `while` per marker, in array order.
Every round of the `while` shortens the text, so its length bounds the
rounds. -/
def remove_special_tokens (response : List Char) : List Char :=
  special_tokens.foldl (fun r tok => excise tok r.length r) response

/-- The test `*p == ' ' || *p == '\n' || *p == '\t' || *p == '\r'` of lines 257 and 260. -/
def is_trim_char (c : Char) : Bool :=
  c == ' ' || c == '\n' || c == '\t' || c == '\r'

/-- Lines 256-265: `start` skips leading whitespace, `end` walks back over
trailing whitespace while `end > start`, so the byte at `start` is never cut. -/
def trim (response : List Char) : List Char :=
  match response.dropWhile is_trim_char with
  | [] => []
  | c :: rest => c :: rest.rdropWhile is_trim_char

/-- The loop of lines 272-282, with `space_count` as the first argument. -/
def collapse_spaces : Nat → List Char → List Char
  | _, [] => []
  | space_count, c :: cs =>
    if c = ' ' then
      if space_count + 1 = 1 then c :: collapse_spaces (space_count + 1) cs
      else collapse_spaces (space_count + 1) cs
    else c :: collapse_spaces 0 cs

/-- The text `cleaned` of line 283: markers removed, trimmed, spaces collapsed. -/
def cleaned (response : List Char) : List Char :=
  collapse_spaces 0 (trim (remove_special_tokens response))

/-- The string returned at line 291. -/
def low_quality_msg : List Char :=
  "I'm not sure how to respond to that. Could you rephrase your question?".toList

/-- The string returned at line 310. -/
def empty_msg : List Char :=
  "I'm having trouble generating a response right now.".toList

/-- Lines 295-305: the period is appended by `strcat(response, ".")`.  The
model keeps the text only; the capacity of the buffer it is written to is not
part of this definition. -/
def ensure_sentence_ending (response : List Char) : List Char :=
  if response.length > 20 then
    let last_char := response.getD (response.length - 1) '\x00'
    if last_char ≠ '.' ∧ last_char ≠ '!' ∧ last_char ≠ '?' ∧
        last_char ≠ '"' ∧ last_char ≠ '\n' then
      if response.length < 8180 ∧ (strchr response ':').isNone ∧
          strncmp (response.drop (response.length - 3)) "...".toList 3 ≠ 0 then
        response ++ ".".toList
      else response
    else response
  else response

/-- Lines 308-313. -/
def final_check (response : List Char) : List Char :=
  if response.length = 0 then empty_msg else response

/-- The cleaning stage of `run_llama`, lines 241-313, as a function of the
raw generated text `response`. -/
def sanitize (response : List Char) : List Char :=
  if response.length > 0 then
    let response := cleaned response
    if response.length < 3 then low_quality_msg
    else final_check (ensure_sentence_ending response)
  else final_check response

/-! ## The inference runtime and the file system -/

/-- The calls of `run_llama` that acquire, use or release a resource, in the
order they are made.  An acquiring call is recorded when it is made; whether
it returned a handle is read off the `Runtime`. -/
inductive Event
  | llama_backend_init
  | llama_backend_free
  | fopen
  | fclose
  | llama_model_load_from_file
  | llama_model_free
  | llama_init_from_model
  | llama_free
  | llama_model_get_vocab
  | malloc_tokens
  | free_tokens
  | llama_tokenize
  | llama_decode (n_tokens : Int)
  | llama_sampler_chain_init
  | llama_sampler_free
  | llama_sampler_sample
  | llama_sampler_accept
  | llama_token_to_piece
deriving DecidableEq

/-- What the runtime answers in one round of the generation loop. -/
structure Step where
  /-- The value of `llama_vocab_is_eog(vocab, new_token)`. -/
  is_eog : Bool
  /-- The bytes `llama_token_to_piece` writes to `token_text`, NUL bytes
  included; `none` when it returns a negative length.  `token_len` is the
  number of bytes; the call of line 184 passes 127 as the room available,
  which the model does not enforce. -/
  piece : Option (List Char)
  /-- The value of `llama_decode(ctx, next_batch)`. -/
  decode : Int

/-- Everything outside the bridge that `run_llama` consults. -/
structure Runtime where
  /-- The content of the file `fopen(path, "rb")` opens, `none` for NULL. -/
  file : List Char → Option (List Char)
  /-- Whether `llama_model_load_from_file` returns a model. -/
  model_loads : List Char → Bool
  /-- Whether `llama_init_from_model` returns a context. -/
  context_inits : Bool
  /-- Whether `llama_model_get_vocab` returns a vocabulary. -/
  vocab_found : Bool
  /-- The value of `llama_tokenize(vocab, prompt, strlen(prompt), tokens, n_tokens_max, true, false)`. -/
  llama_tokenize : List Char → Int → Int
  /-- The value of `llama_decode(ctx, batch)` on the prompt batch. -/
  decode_prompt : Int
  /-- The answers in round `i` of the generation loop (`i` tokens generated so far). -/
  steps : Nat → Step

/-- The local variables of the generation loop, and the calls made so far. -/
structure GenState where
  response : List Char
  response_len : Int
  tokens_generated : Int
  trace : List Event

/-- The value `run_llama` returns, and the calls it made. -/
structure Outcome where
  result : List Char
  trace : List Event

/-! ## Generation loop (lines 170-232) -/

/-- The test of lines 191-193. -/
def has_end_token (token_text : List Char) : Bool :=
  (strstr token_text "<|im_end|>".toList).isSome || (strstr token_text "<|end|>".toList).isSome ||
  (strstr token_text "<|im_start|>".toList).isSome || (strstr token_text "<|system|>".toList).isSome ||
  (strstr token_text "<|user|>".toList).isSome || (strstr token_text "<|assistant|>".toList).isSome

/-- The first operand of the test of lines 219-221. -/
def at_sentence_boundary (token_text : List Char) : Bool :=
  (strstr token_text ". ".toList).isSome || (strstr token_text ".\n".toList).isSome ||
  (strstr token_text "! ".toList).isSome || (strstr token_text "?\n".toList).isSome ||
  (strstr token_text ".\"".toList).isSome || (strstr token_text "!\"".toList).isSome ||
  (strstr token_text "?\"".toList).isSome

/-- The second operand of the test of lines 227-228. -/
def looks_repetitive (token_text : List Char) : Bool :=
  (strstr token_text "\n\n".toList).isSome || (strstr token_text "  ".toList).isSome

/-- The `while (tokens_generated < config.max_tokens)` loop.  A round either
leaves the loop (`break`) or adds one to `tokens_generated`; the first
argument bounds the number of rounds.  Line 188 ends `token_text` after
`token_len` bytes, so `strstr` and `strcat` see the bytes before the first
NUL, while `response_len` grows by `token_len`.  `config.max_tokens * 0.8` is a `double`
in C and is computed in `ℚ` here: the `double` nearest to 0.8 lies above 0.8,
so for an integer count the comparison has the same outcome. -/
def generation_loop (rt : Runtime) (config : model_config_t) (model_path : List Char) :
    Nat → GenState → GenState
  | 0, st => st
  | fuel + 1, st =>
    if st.tokens_generated < config.max_tokens then
      let step := rt.steps st.tokens_generated.toNat
      let st := { st with trace := st.trace ++ [Event.llama_sampler_sample] }
      if step.is_eog then st
      else
        let st := { st with trace := st.trace ++ [Event.llama_sampler_accept, Event.llama_token_to_piece] }
        match step.piece with
        | none => st
        | some piece =>
          let token_len : Int := piece.length
          let token_text := c_string piece
          if has_end_token token_text then st
          else if st.response_len + token_len < 8190 then
            let st := { st with response := st.response ++ token_text,
                                response_len := st.response_len + token_len,
                                trace := st.trace ++ [Event.llama_decode 1] }
            if step.decode ≠ 0 then st
            else
              let st := { st with tokens_generated := st.tokens_generated + 1 }
              if st.response_len > 50 then
                let min_tokens : Int := if (strstr model_path "phi-3".toList).isSome then 30 else 20
                if at_sentence_boundary token_text ∧ st.tokens_generated > min_tokens then st
                else if (st.tokens_generated : ℚ) > (config.max_tokens : ℚ) * 0.8 ∧
                    looks_repetitive token_text then st
                else generation_loop rt config model_path fuel st
              else generation_loop rt config model_path fuel st
          else st
    else st

/-! ## `run_llama` (lines 52-314) -/

/-- The function `run_llama(model_path, prompt)` against a runtime `rt`.  `ftell` gives the
length of the file and `fread` its first four bytes.  The `double` product
`max_prompt_tokens * 0.9` is computed in `ℚ`: for the two capacities the
profiles give, 176 and 156, it is 158.4 and 140.4, more than any rounding
error away from an integer. -/
def run_llama (rt : Runtime) (model_path prompt : List Char) : Outcome :=
  let t0 := [Event.llama_backend_init]
  match rt.file model_path with
  | none =>
    ⟨"Error: Model file not found. Please download the model first.".toList,
      t0 ++ [Event.fopen, Event.llama_backend_free]⟩
  | some content =>
    let t1 := t0 ++ [Event.fopen]
    let file_size : Int := content.length
    if file_size < 1000000 then
      ⟨"Error: Model file appears to be corrupted or incomplete. Please re-download the model.".toList,
        t1 ++ [Event.fclose, Event.llama_backend_free]⟩
    else
      let header := content.take 4
      let read_bytes := header.length
      let t2 := t1 ++ [Event.fclose]
      if read_bytes ≠ 4 ∨ header ≠ "GGUF".toList then
        ⟨"Error: Invalid model file format. Please ensure you have downloaded a valid GGUF model file.".toList,
          t2 ++ [Event.llama_backend_free]⟩
      else
        let config := get_model_config model_path
        let t3 := t2 ++ [Event.llama_model_load_from_file]
        if ¬ rt.model_loads model_path then
          ⟨"Error: Failed to load model. The file may be corrupted or incompatible with this version of the app.".toList,
            t3 ++ [Event.llama_backend_free]⟩
        else
          let t4 := t3 ++ [Event.llama_init_from_model]
          if ¬ rt.context_inits then
            ⟨"Error: Failed to create context".toList,
              t4 ++ [Event.llama_model_free, Event.llama_backend_free]⟩
          else
            let t5 := t4 ++ [Event.llama_model_get_vocab]
            if ¬ rt.vocab_found then
              ⟨"Error: Failed to get vocabulary".toList,
                t5 ++ [Event.llama_free, Event.llama_model_free, Event.llama_backend_free]⟩
            else
              let max_prompt_tokens : Int := config.context_size - config.max_tokens - 50
              let n_tokens := rt.llama_tokenize prompt max_prompt_tokens
              let t6 := t5 ++ [Event.malloc_tokens, Event.llama_tokenize]
              if n_tokens < 0 then
                ⟨"Conversation too long. Please start a new chat to continue.".toList,
                  t6 ++ [Event.free_tokens, Event.llama_free, Event.llama_model_free,
                    Event.llama_backend_free]⟩
              else if (n_tokens : ℚ) > (max_prompt_tokens : ℚ) * 0.9 then
                ⟨"Context nearly full. Please start a new conversation for better responses.".toList,
                  t6 ++ [Event.free_tokens, Event.llama_free, Event.llama_model_free,
                    Event.llama_backend_free]⟩
              else
                let t7 := t6 ++ [Event.llama_decode n_tokens]
                if rt.decode_prompt ≠ 0 then
                  ⟨"Error: Failed to process prompt".toList,
                    t7 ++ [Event.llama_free, Event.llama_model_free, Event.llama_backend_free]⟩
                else
                  let t8 := t7 ++ [Event.llama_sampler_chain_init]
                  let st := generation_loop rt config model_path config.max_tokens.toNat
                    ⟨[], 0, 0, t8⟩
                  ⟨sanitize st.response,
                    st.trace ++ [Event.llama_sampler_free, Event.free_tokens, Event.llama_free,
                      Event.llama_model_free, Event.llama_backend_free]⟩

/-! ## Vocabulary of the properties -/

/-- No two adjacent bytes of `s` are both spaces. -/
def NoDoubleSpace (s : List Char) : Prop :=
  s.Chain' (fun a b => ¬ (a = ' ' ∧ b = ' '))

/-- The three facts about a text that the cleaning steps establish and that
the appended period keeps. -/
structure Tidy (r : List Char) : Prop where
  head : ∀ c, r.head? = some c → is_trim_char c = false
  last : ∀ c, r.getLast? = some c → is_trim_char c = false
  noDouble : NoDoubleSpace r

/-- A runtime whose first two tokens read `<|im_<|e` and `nd|>end|>` and whose
third token is the end-of-generation token. -/
def nestedMarkerRuntime : Runtime where
  file := fun _ => none
  model_loads := fun _ => true
  context_inits := true
  vocab_found := true
  llama_tokenize := fun _ _ => 0
  decode_prompt := 0
  steps := fun i =>
    if i = 0 then ⟨false, some "<|im_<|e".toList, 0⟩
    else if i = 1 then ⟨false, some "nd|>end|>".toList, 0⟩
    else ⟨true, none, 0⟩

/-- A runtime that differs only in what `fopen` finds at every path. -/
def fileRuntime (content : Option (List Char)) : Runtime where
  file := fun _ => content
  model_loads := fun _ => true
  context_inits := true
  vocab_found := true
  llama_tokenize := fun _ _ => 0
  decode_prompt := 0
  steps := fun _ => ⟨true, none, 0⟩

/-- A runtime with a well-formed model file of 1,000,000 bytes whose tokenizer
reports `n_tokens` tokens for every prompt and whose first sampled token ends
the generation. -/
def tokenRuntime (n_tokens : Int) : Runtime where
  file := fun _ => some ("GGUF".toList ++ List.replicate 999996 'x')
  model_loads := fun _ => true
  context_inits := true
  vocab_found := true
  llama_tokenize := fun _ _ => n_tokens
  decode_prompt := 0
  steps := fun _ => ⟨true, none, 0⟩

/-! ## One round of the generation loop -/

/-- The `break` statements of the loop body, in source order (lines 176, 186,
194, 202, 208, 223, 229). -/
inductive StopReason
  | end_of_generation
  | piece_failed
  | end_token
  | buffer_full
  | decode_failed
  | sentence_boundary
  | repetition
deriving DecidableEq

/-- The value of `min_tokens` of line 216. -/
def min_tokens (model_path : List Char) : Int :=
  if (strstr model_path "phi-3".toList).isSome then 30 else 20

/-- The loop body of lines 171-231 run once from `st`: the state it leaves
and the `break` it took, `none` when it reaches the end of the body. -/
def loop_round (rt : Runtime) (config : model_config_t) (model_path : List Char)
    (st : GenState) : GenState × Option StopReason :=
  let step := rt.steps st.tokens_generated.toNat
  let st := { st with trace := st.trace ++ [Event.llama_sampler_sample] }
  if step.is_eog then (st, some StopReason.end_of_generation)
  else
    let st := { st with trace := st.trace ++ [Event.llama_sampler_accept, Event.llama_token_to_piece] }
    match step.piece with
    | none => (st, some StopReason.piece_failed)
    | some piece =>
      let token_len : Int := piece.length
      let token_text := c_string piece
      if has_end_token token_text then (st, some StopReason.end_token)
      else if st.response_len + token_len < 8190 then
        let st := { st with response := st.response ++ token_text,
                            response_len := st.response_len + token_len,
                            trace := st.trace ++ [Event.llama_decode 1] }
        if step.decode ≠ 0 then (st, some StopReason.decode_failed)
        else
          let st := { st with tokens_generated := st.tokens_generated + 1 }
          if st.response_len > 50 then
            if at_sentence_boundary token_text ∧ st.tokens_generated > min_tokens model_path then
              (st, some StopReason.sentence_boundary)
            else if (st.tokens_generated : ℚ) > (config.max_tokens : ℚ) * 0.8 ∧
                looks_repetitive token_text then (st, some StopReason.repetition)
            else (st, none)
          else (st, none)
      else (st, some StopReason.buffer_full)

/-- The two tests of lines 213-231 on the values `response_len` and
`tokens_generated` have once the token is appended and counted: the `break`
taken, `none` when the body runs to its end. -/
def heuristic_stop (config : model_config_t) (model_path : List Char)
    (response_len tokens_generated : Int) (token_text : List Char) : Option StopReason :=
  if response_len > 50 then
    if at_sentence_boundary token_text ∧ tokens_generated > min_tokens model_path then
      some StopReason.sentence_boundary
    else if (tokens_generated : ℚ) > (config.max_tokens : ℚ) * 0.8 ∧
        looks_repetitive token_text then some StopReason.repetition
    else none
  else none

/-- How a run of the loop ends: by a `break`, by the loop condition
`tokens_generated < config.max_tokens` turning false, or, in the model only,
because the bound on the number of rounds was used up first. -/
inductive LoopExit
  | stopped (reason : StopReason)
  | budget_exhausted
  | out_of_fuel
deriving DecidableEq

/-- The way `generation_loop` with the same arguments ends. -/
def loop_exit (rt : Runtime) (config : model_config_t) (model_path : List Char) :
    Nat → GenState → LoopExit
  | 0, st =>
    if st.tokens_generated < config.max_tokens then LoopExit.out_of_fuel
    else LoopExit.budget_exhausted
  | fuel + 1, st =>
    if st.tokens_generated < config.max_tokens then
      match (loop_round rt config model_path st).2 with
      | some reason => LoopExit.stopped reason
      | none => loop_exit rt config model_path fuel (loop_round rt config model_path st).1
    else LoopExit.budget_exhausted

/-- The number of tokens handed to `llama_decode` over a run. -/
def tokens_fed : List Event → Int
  | [] => 0
  | Event.llama_decode n :: rest => n + tokens_fed rest
  | _ :: rest => tokens_fed rest

/-- The number of rounds of the loop body in a run: each round starts with
one call of `llama_sampler_sample`. -/
def rounds (trace : List Event) : Nat :=
  trace.count Event.llama_sampler_sample

/-- The size passed to `malloc` at line 268 for the buffer `cleaned`: the
length of the trimmed text plus one. -/
def cleaned_capacity (response : List Char) : Nat :=
  (trim (remove_special_tokens response)).length + 1

/-- The bytes line 302 needs in `cleaned` for a raw text that is not replaced
by a message: the final text and its terminator. -/
def cleaned_needed (response : List Char) : Nat :=
  (ensure_sentence_ending (cleaned response)).length + 1

/-! ## A run that reaches the generation loop -/

/-- The value of `max_prompt_tokens` of line 125. -/
def max_prompt_tokens (model_path : List Char) : Int :=
  (get_model_config model_path).context_size - (get_model_config model_path).max_tokens - 50

/-- The value of `n_tokens` of line 127. -/
def prompt_tokens (rt : Runtime) (model_path prompt : List Char) : Int :=
  rt.llama_tokenize prompt (max_prompt_tokens model_path)

/-- The checks of lines 56-144 all pass: the file opens, has at least
1,000,000 bytes and starts with `GGUF`; model, context and vocabulary are
obtained; the token count is not negative and not above 90% of
`max_prompt_tokens`. -/
structure ChecksPass (rt : Runtime) (model_path prompt : List Char) : Prop where
  file : ∃ content, rt.file model_path = some content ∧ 1000000 ≤ content.length ∧
    content.take 4 = "GGUF".toList
  model : rt.model_loads model_path = true
  context : rt.context_inits = true
  vocab : rt.vocab_found = true
  count_nonneg : 0 ≤ prompt_tokens rt model_path prompt
  count_fits : ¬ ((prompt_tokens rt model_path prompt : ℚ) > (max_prompt_tokens model_path : ℚ) * 0.9)

/-- The calls `run_llama` has made when it enters the generation loop with a
prompt of `n_tokens` tokens. -/
def prompt_trace (n_tokens : Int) : List Event :=
  [Event.llama_backend_init, Event.fopen, Event.fclose, Event.llama_model_load_from_file,
   Event.llama_init_from_model, Event.llama_model_get_vocab, Event.malloc_tokens,
   Event.llama_tokenize, Event.llama_decode n_tokens, Event.llama_sampler_chain_init]

/-- The loop variables as lines 165-168 set them. -/
def loop_start (n_tokens : Int) : GenState :=
  ⟨[], 0, 0, prompt_trace n_tokens⟩

/-- The final loop variables of `run_llama` in a run that reaches the loop. -/
def generated (rt : Runtime) (model_path prompt : List Char) : GenState :=
  generation_loop rt (get_model_config model_path) model_path
    (get_model_config model_path).max_tokens.toNat
    (loop_start (prompt_tokens rt model_path prompt))

/-- A runtime with a well-formed model file and a prompt of 10 tokens whose
decoding fails. -/
def promptFailRuntime : Runtime where
  file := fun _ => some ("GGUF".toList ++ List.replicate 999996 'x')
  model_loads := fun _ => true
  context_inits := true
  vocab_found := true
  llama_tokenize := fun _ _ => 10
  decode_prompt := 1
  steps := fun _ => ⟨true, none, 0⟩

/-- A runtime whose first 21 token texts are `ab`, whose 22nd token text is
`Is it so? ` and whose 23rd token ends the generation. -/
def questionRuntime : Runtime where
  file := fun _ => some ("GGUF".toList ++ List.replicate 999996 'x')
  model_loads := fun _ => true
  context_inits := true
  vocab_found := true
  llama_tokenize := fun _ _ => 5
  decode_prompt := 0
  steps := fun i =>
    if i < 21 then ⟨false, some "ab".toList, 0⟩
    else if i = 21 then ⟨false, some "Is it so? ".toList, 0⟩
    else ⟨true, none, 0⟩

/-- A configuration with a budget of 100 tokens.  `get_model_config` never
returns it: with the budgets of 30 and 50 tokens and token texts of at most
127 bytes the `break` of line 202 cannot be reached. -/
def wideConfig : model_config_t :=
  { context_size := 256, batch_size := 32, temperature := 0.7,
    top_k := 40, top_p := 0.9, max_tokens := 100 }

/-- A runtime whose every token text is 127 letters `a`. -/
def longRuntime : Runtime where
  file := fun _ => some ("GGUF".toList ++ List.replicate 999996 'x')
  model_loads := fun _ => true
  context_inits := true
  vocab_found := true
  llama_tokenize := fun _ _ => 5
  decode_prompt := 0
  steps := fun _ => ⟨false, some (List.replicate 127 'a'), 0⟩

/-- A runtime that never stops on its own: the first 29 token texts are `a`,
the later ones `.`, every `llama_decode` succeeds and no token ends the
generation. -/
def steadyRuntime : Runtime where
  file := fun _ => some ("GGUF".toList ++ List.replicate 999996 'x')
  model_loads := fun _ => true
  context_inits := true
  vocab_found := true
  llama_tokenize := fun _ _ => 5
  decode_prompt := 0
  steps := fun i =>
    if i < 29 then ⟨false, some "a".toList, 0⟩
    else ⟨false, some ".".toList, 0⟩

/-- A runtime whose first token text is `  This   is a  longer test sentence `
followed by a newline and whose second token ends the generation. -/
def sentenceRuntime : Runtime where
  file := fun _ => some ("GGUF".toList ++ List.replicate 999996 'x')
  model_loads := fun _ => true
  context_inits := true
  vocab_found := true
  llama_tokenize := fun _ _ => 5
  decode_prompt := 0
  steps := fun i =>
    if i = 0 then ⟨false, some "  This   is a  longer test sentence \n".toList, 0⟩
    else ⟨true, none, 0⟩

/-! ## `strstr` finds exactly the substrings -/

theorem strstr_isSome_iff (haystack needle : List Char) :
    (strstr haystack needle).isSome ↔ needle <:+: haystack := by
  induction haystack with
  | nil =>
    cases needle <;> simp [strstr]
  | cons c cs ih =>
    rw [List.infix_cons_iff, ← ih]
    by_cases h : needle.isPrefixOf (c :: cs) = true
    · have h2 : needle <+: c :: cs := List.isPrefixOf_iff_prefix.mp h
      simp [strstr, h, h2]
    · have h2 : ¬ needle <+: c :: cs := fun hp => h (List.isPrefixOf_iff_prefix.mpr hp)
      simp [strstr, h, h2]

theorem strstr_eq_none_iff (haystack needle : List Char) :
    strstr haystack needle = none ↔ ¬ needle <:+: haystack := by
  rw [← strstr_isSome_iff]
  cases strstr haystack needle <;> simp

/-! ## C1 -/

/-- C1, counterexample: the path `tinyllama.gguf` contains neither `phi-3` nor
`Phi-3`, yet `get_model_config` does not return the default profile for it. -/
theorem get_model_config_tinyllama_not_default :
    ¬ "phi-3".toList <:+: "tinyllama.gguf".toList ∧
    ¬ "Phi-3".toList <:+: "tinyllama.gguf".toList ∧
    get_model_config "tinyllama.gguf".toList ≠ ⟨256, 32, 0.7, 40, 0.9, 50⟩ := by
  refine ⟨by decide, by decide, ?_⟩
  intro h
  have h2 := congrArg model_config_t.max_tokens h
  revert h2
  decide

/-- C1, amended: a path that contains one of the markers `phi-3`, `Phi-3`,
`tinyllama`, `TinyLlama` gets the profile {256, 32, 0.1, 3, 0.2, 30}; every
other path gets {256, 32, 0.7, 40, 0.9, 50}. -/
theorem get_model_config_profiles (model_path : List Char) :
    get_model_config model_path =
      if "phi-3".toList <:+: model_path ∨ "Phi-3".toList <:+: model_path ∨
          "tinyllama".toList <:+: model_path ∨ "TinyLlama".toList <:+: model_path
      then ⟨256, 32, 0.1, 3, 0.2, 30⟩ else ⟨256, 32, 0.7, 40, 0.9, 50⟩ := by
  unfold get_model_config
  simp only [Bool.or_eq_true, strstr_isSome_iff]
  by_cases h1 : "phi-3".toList <:+: model_path ∨ "Phi-3".toList <:+: model_path
  · rw [if_pos h1, if_pos (by tauto)]
  · rw [if_neg h1]
    by_cases h2 : "tinyllama".toList <:+: model_path ∨ "TinyLlama".toList <:+: model_path
    · rw [if_pos h2, if_pos (by tauto)]
    · rw [if_neg h2, if_neg (by tauto)]

/-! ## The cleaning stage: what `sanitize` returns -/

theorem sanitize_nil : sanitize [] = empty_msg := by decide

theorem sanitize_of_short (raw : List Char) (hne : raw ≠ [])
    (hshort : (cleaned raw).length < 3) : sanitize raw = low_quality_msg := by
  have hpos : raw.length > 0 := List.length_pos.mpr hne
  simp only [sanitize, hpos, hshort, if_true]

theorem length_le_ensure_sentence_ending (r : List Char) :
    r.length ≤ (ensure_sentence_ending r).length := by
  unfold ensure_sentence_ending
  dsimp only
  split_ifs <;> simp

theorem sanitize_of_long (raw : List Char) (hlong : 3 ≤ (cleaned raw).length) :
    sanitize raw = ensure_sentence_ending (cleaned raw) := by
  have hpos : raw.length > 0 := by
    rcases raw with _ | ⟨c, cs⟩
    · revert hlong; decide
    · simp
  have h3 : ¬ (cleaned raw).length < 3 := by omega
  have h0 : ¬ (ensure_sentence_ending (cleaned raw)).length = 0 := by
    have := length_le_ensure_sentence_ending (cleaned raw)
    omega
  simp only [sanitize, hpos, h3, final_check, h0, if_true, if_false]

theorem strchr_isNone_iff (s : List Char) (c : Char) :
    (strchr s c).isNone ↔ c ∉ s := by
  induction s with
  | nil => simp [strchr]
  | cons x xs ih =>
    by_cases h : x = c
    · simp [strchr, h]
    · have h2 : ¬ c = x := fun e => h e.symm
      simp only [strchr, h, if_false, List.mem_cons, h2, false_or, ← ih]
      cases strchr xs c <;> simp

theorem strncmp_tail_ne_zero_iff (r : List Char) (h : 3 ≤ r.length) :
    strncmp (r.drop (r.length - 3)) "...".toList 3 ≠ 0 ↔ ¬ "...".toList <:+ r := by
  have hlen : (r.drop (r.length - 3)).length = 3 := by simp; omega
  have htake : (r.drop (r.length - 3)).take 3 = r.drop (r.length - 3) :=
    List.take_of_length_le (by omega)
  have h2 : ("...".toList).take 3 = "...".toList := by decide
  have hsuf : "...".toList <:+ r ↔ r.drop (r.length - 3) = "...".toList := by
    constructor
    · intro hs
      have := List.suffix_iff_eq_drop.mp hs
      simpa using this.symm
    · intro he
      rw [← he]
      exact List.drop_suffix _ _
  unfold strncmp
  rw [htake, h2, hsuf]
  split_ifs with hc
  · simp only [ne_eq, not_true_eq_false, hc]
  · simp only [ne_eq, one_ne_zero, not_false_eq_true, hc]

/-- The rule of lines 295-305 in the words of the specification. -/
theorem ensure_sentence_ending_eq (r : List Char) :
    ensure_sentence_ending r =
      if 20 < r.length ∧ r.length < 8180 ∧
          (∀ c ∈ ['.', '!', '?', '"', '\n'], r.getLast? ≠ some c) ∧
          ¬ "...".toList <:+ r ∧ ':' ∉ r
      then r ++ ['.'] else r := by
  unfold ensure_sentence_ending
  by_cases h20 : r.length > 20
  · have hlast : r.getLast? = some (r.getD (r.length - 1) '\x00') := by
      rw [List.getLast?_eq_getElem?, List.getD_eq_getElem?_getD]
      have hlt : r.length - 1 < r.length := by omega
      simp [List.getElem?_eq_getElem hlt]
    have h3 : 3 ≤ r.length := by omega
    simp only [h20, if_true, strchr_isNone_iff, strncmp_tail_ne_zero_iff r h3, hlast,
      List.mem_cons, List.mem_singleton, forall_eq_or_imp, forall_eq, ne_eq,
      Option.some.injEq, List.not_mem_nil, false_implies, implies_true, and_true]
    by_cases hl : r.getD (r.length - 1) '\x00' ≠ '.' ∧ r.getD (r.length - 1) '\x00' ≠ '!' ∧
        r.getD (r.length - 1) '\x00' ≠ '?' ∧ r.getD (r.length - 1) '\x00' ≠ '"' ∧
        r.getD (r.length - 1) '\x00' ≠ '\n'
    · rw [if_pos hl]
      by_cases hg : r.length < 8180 ∧ ':' ∉ r ∧ ¬ "...".toList <:+ r
      · rw [if_pos hg, if_pos (by tauto)]; rfl
      · rw [if_neg hg, if_neg (by tauto)]
    · rw [if_neg hl, if_neg (by tauto)]
  · have : ¬ 20 < r.length := h20
    simp [h20, this]

/-! ## Trimming -/

theorem trim_head (s : List Char) (c : Char) (h : (trim s).head? = some c) :
    is_trim_char c = false := by
  unfold trim at h
  have hd := List.head?_dropWhile_not is_trim_char s
  cases hs : s.dropWhile is_trim_char with
  | nil => rw [hs] at h; simp at h
  | cons x rest =>
    rw [hs] at h hd
    simp only [List.head?_cons, Option.some.injEq] at h hd
    rw [← h]; exact hd

theorem trim_getLast (s : List Char) (c : Char) (h : (trim s).getLast? = some c) :
    is_trim_char c = false := by
  unfold trim at h
  have hd := List.head?_dropWhile_not is_trim_char s
  cases hs : s.dropWhile is_trim_char with
  | nil => rw [hs] at h; simp at h
  | cons x rest =>
    rw [hs] at h hd
    simp only [List.head?_cons] at hd
    simp only [] at h
    by_cases hr : rest.rdropWhile is_trim_char = []
    · rw [hr] at h
      simp only [List.getLast?_singleton, Option.some.injEq] at h
      rw [← h]; exact hd
    · have hnot := List.rdropWhile_last_not is_trim_char rest hr
      rw [List.getLast?_cons, List.getLast?_eq_getLast _ hr] at h
      simp only [Option.getD_some, Option.some.injEq] at h
      rw [← h]
      simpa using hnot

theorem trim_eq_self (s : List Char)
    (hh : ∀ c, s.head? = some c → is_trim_char c = false)
    (hl : ∀ c, s.getLast? = some c → is_trim_char c = false) : trim s = s := by
  cases s with
  | nil => rfl
  | cons x rest =>
    have hx : is_trim_char x = false := hh x rfl
    have hdrop : (x :: rest).dropWhile is_trim_char = x :: rest := by
      simp [List.dropWhile_cons, hx]
    unfold trim
    rw [hdrop]
    simp only [List.cons.injEq, true_and]
    rw [List.rdropWhile_eq_self_iff]
    intro hne
    have := hl (rest.getLast hne) (by
      rw [List.getLast?_cons, List.getLast?_eq_getLast _ hne]; rfl)
    simp [this]

/-! ## Collapsing spaces -/

theorem collapse_spaces_head (s : List Char) :
    (collapse_spaces 0 s).head? = s.head? := by
  cases s with
  | nil => rfl
  | cons c cs =>
    by_cases hc : c = ' ' <;> simp [collapse_spaces, hc]

theorem collapse_spaces_getLast (s : List Char) (c : Char) (hc : c ≠ ' ') :
    ∀ n, s.getLast? = some c → (collapse_spaces n s).getLast? = some c := by
  induction s with
  | nil => intro n h; simp at h
  | cons x xs ih =>
    intro n h
    cases xs with
    | nil =>
      simp only [List.getLast?_singleton, Option.some.injEq] at h
      subst h
      simp [collapse_spaces, hc]
    | cons y ys =>
      rw [List.getLast?_cons_cons] at h
      have key : ∀ m, (x :: collapse_spaces m (y :: ys)).getLast? = some c := by
        intro m
        rw [List.getLast?_cons, ih m h]; rfl
      unfold collapse_spaces
      split_ifs
      · exact key _
      · exact ih _ h
      · exact key _

theorem collapse_spaces_noDouble (s : List Char) :
    ∀ n, NoDoubleSpace (collapse_spaces n s) ∧
      (0 < n → (collapse_spaces n s).head? ≠ some ' ') := by
  induction s with
  | nil => intro n; simp [collapse_spaces, NoDoubleSpace]
  | cons x xs ih =>
    intro n
    unfold collapse_spaces
    split_ifs with hx hn
    · have hn0 : ¬ 0 < n := by omega
      refine ⟨?_, fun h => absurd h hn0⟩
      unfold NoDoubleSpace
      rw [List.chain'_cons']
      refine ⟨?_, (ih (n + 1)).1⟩
      intro y hy
      have := (ih (n + 1)).2 (by omega)
      rintro ⟨-, rfl⟩
      exact this hy
    · exact ⟨(ih (n + 1)).1, fun _ => (ih (n + 1)).2 (by omega)⟩
    · refine ⟨?_, fun _ => by simpa using hx⟩
      unfold NoDoubleSpace
      rw [List.chain'_cons']
      exact ⟨fun y _ h => hx h.1, (ih 0).1⟩

theorem collapse_spaces_filter (s : List Char) :
    ∀ n, (collapse_spaces n s).filter (fun c => c ≠ ' ') = s.filter (fun c => c ≠ ' ') := by
  induction s with
  | nil => intro n; rfl
  | cons x xs ih =>
    intro n
    unfold collapse_spaces
    split_ifs with hx hn
    · simp only [List.filter_cons, ih]
    · rw [ih, List.filter_cons_of_neg]
      simp [hx]
    · simp only [List.filter_cons, ih]

theorem collapse_spaces_sublist (s : List Char) :
    ∀ n, (collapse_spaces n s).Sublist s := by
  induction s with
  | nil => intro n; simp [collapse_spaces]
  | cons x xs ih =>
    intro n
    unfold collapse_spaces
    split_ifs
    · exact (ih _).cons₂ x
    · exact (ih _).cons x
    · exact (ih _).cons₂ x

theorem collapse_spaces_eq_self (s : List Char) :
    ∀ n, NoDoubleSpace s → (0 < n → s.head? ≠ some ' ') → collapse_spaces n s = s := by
  induction s with
  | nil => intro n _ _; rfl
  | cons x xs ih =>
    intro n hch hhead
    unfold NoDoubleSpace at hch
    rw [List.chain'_cons'] at hch
    unfold collapse_spaces
    split_ifs with hx hn
    · rw [ih (n + 1) hch.2 (fun _ hy => hch.1 ' ' hy ⟨hx, rfl⟩)]
    · exfalso
      exact hhead (by omega) (by simp [hx])
    · rw [ih 0 hch.2 (fun h => absurd h (by omega))]

theorem noDoubleSpace_not_infix (s : List Char) (h : NoDoubleSpace s) :
    ¬ [' ', ' '] <:+: s := by
  intro hin
  have := List.Chain'.infix h hin
  simp at this

/-! ## Marker removal -/

theorem strstr_some_at (tok : List Char) :
    ∀ (s : List Char) (k : Nat), strstr s tok = some k → tok <+: s.drop k := by
  intro s
  induction s with
  | nil =>
    intro k h
    unfold strstr at h
    split_ifs at h with hp
    have := List.isPrefixOf_iff_prefix.mp hp
    simpa using this
  | cons c cs ih =>
    intro k h
    unfold strstr at h
    split_ifs at h with hp
    · simp only [Option.some.injEq] at h
      subst h
      exact List.isPrefixOf_iff_prefix.mp hp
    · cases hs : strstr cs tok with
      | none => rw [hs] at h; simp at h
      | some j =>
        rw [hs] at h
        simp only [Option.map_some', Option.some.injEq] at h
        subst h
        simpa using ih j hs

theorem strstr_some_le (tok s : List Char) (k : Nat) (h : strstr s tok = some k) :
    k + tok.length ≤ s.length := by
  have hp := (strstr_some_at tok s k h).length_le
  by_cases hk : k ≤ s.length
  · rw [List.length_drop] at hp; omega
  · rw [List.length_drop] at hp
    have ht : tok.length = 0 := by omega
    have htok : tok = [] := List.length_eq_zero.mp ht
    subst htok
    -- the empty needle is found at offset 0
    cases s with
    | nil => simp [strstr] at h; omega
    | cons c cs => simp [strstr] at h; omega

theorem length_excise_step (tok s : List Char) (k : Nat) (h : strstr s tok = some k) :
    (s.take k ++ s.drop (k + tok.length)).length + tok.length = s.length := by
  have := strstr_some_le tok s k h
  simp only [List.length_append, List.length_take, List.length_drop]
  omega

/-- The bound given to `excise` is never the reason it stops: with a bound of
at least the length of the text, the result holds no occurrence of the marker,
which is the exit condition of the `while` of line 249. -/
theorem strstr_excise (tok : List Char) (htok : tok ≠ []) :
    ∀ (fuel : Nat) (s : List Char), s.length ≤ fuel → strstr (excise tok fuel s) tok = none := by
  have hlen : 0 < tok.length := List.length_pos.mpr htok
  intro fuel
  induction fuel with
  | zero =>
    intro s hs
    have : s = [] := List.length_eq_zero.mp (by omega)
    subst this
    cases tok with
    | nil => exact absurd rfl htok
    | cons a as => simp [excise, strstr]
  | succ n ih =>
    intro s hs
    unfold excise
    cases hk : strstr s tok with
    | none => simpa using hk
    | some k =>
      simp only []
      apply ih
      have := length_excise_step tok s k hk
      omega

theorem excise_of_not_infix (tok s : List Char) (fuel : Nat) (h : ¬ tok <:+: s) :
    excise tok fuel s = s := by
  cases fuel with
  | zero => rfl
  | succ n => simp [excise, (strstr_eq_none_iff s tok).mpr h]

theorem remove_special_tokens_eq_self (s : List Char)
    (h : ∀ tok ∈ special_tokens, ¬ tok <:+: s) : remove_special_tokens s = s := by
  unfold remove_special_tokens
  have key : ∀ toks : List (List Char), (∀ tok ∈ toks, ¬ tok <:+: s) →
      toks.foldl (fun r tok => excise tok r.length r) s = s := by
    intro toks
    induction toks with
    | nil => intro _; rfl
    | cons t ts ih =>
      intro ht
      rw [List.foldl_cons, excise_of_not_infix t s _ (ht t (List.mem_cons_self _ _))]
      exact ih (fun tok hm => ht tok (List.mem_cons_of_mem _ hm))
  exact key special_tokens h

theorem special_tokens_have_lt : ∀ tok ∈ special_tokens, '<' ∈ tok := by decide

theorem collapse_spaces_of_no_space (s : List Char) (h : ' ' ∉ s) :
    ∀ n, collapse_spaces n s = s := by
  induction s with
  | nil => intro n; rfl
  | cons x xs ih =>
    intro n
    have hx : ¬ x = ' ' := fun e => h (by simp [e])
    have hxs : ' ' ∉ xs := fun e => h (List.mem_cons_of_mem _ e)
    simp [collapse_spaces, hx, ih hxs]

/-- Text without `<` and without whitespace passes the three cleaning steps unchanged. -/
theorem cleaned_eq_self_of_plain (s : List Char)
    (h : ∀ c ∈ s, c ≠ '<' ∧ is_trim_char c = false) : cleaned s = s := by
  have h1 : remove_special_tokens s = s := by
    apply remove_special_tokens_eq_self
    intro tok htok hin
    have hlt := special_tokens_have_lt tok htok
    exact (h '<' (hin.subset hlt)).1 rfl
  have h2 : trim s = s := by
    apply trim_eq_self
    · intro c hc; exact (h c (List.mem_of_mem_head? hc)).2
    · intro c hc; exact (h c (List.mem_of_mem_getLast? hc)).2
  have h3 : ' ' ∉ s := fun hm => by
    have := (h ' ' hm).2
    revert this; decide
  unfold cleaned
  rw [h1, h2, collapse_spaces_of_no_space s h3]

/-! ## Shape of the result of the cleaning stage -/

theorem is_trim_char_eq_false_iff (c : Char) :
    is_trim_char c = false ↔ c ∉ [' ', '\t', '\n', '\r'] := by
  simp only [is_trim_char, Bool.or_eq_false_iff, beq_eq_false_iff_ne, ne_eq, List.mem_cons,
    List.mem_singleton, List.not_mem_nil, or_false, not_or]
  tauto

theorem ensure_sentence_ending_cases (r : List Char) :
    ensure_sentence_ending r = r ∨
      (20 < r.length ∧ ensure_sentence_ending r = r ++ ['.']) := by
  rw [ensure_sentence_ending_eq]
  split_ifs with h
  · exact Or.inr ⟨h.1, rfl⟩
  · exact Or.inl rfl

theorem ensure_sentence_ending_idem (r : List Char) :
    ensure_sentence_ending (ensure_sentence_ending r) = ensure_sentence_ending r := by
  rcases ensure_sentence_ending_cases r with h | ⟨_, h⟩
  · rw [h, h]
  · rw [h, ensure_sentence_ending_eq (r ++ ['.']), if_neg]
    rintro ⟨-, -, hlast, -, -⟩
    exact hlast '.' (by simp) (by simp)

theorem cleaned_head (raw : List Char) (c : Char) (h : (cleaned raw).head? = some c) :
    is_trim_char c = false := by
  unfold cleaned at h
  rw [collapse_spaces_head] at h
  exact trim_head _ c h

theorem cleaned_getLast (raw : List Char) (c : Char) (h : (cleaned raw).getLast? = some c) :
    is_trim_char c = false := by
  unfold cleaned at h
  cases hl : (trim (remove_special_tokens raw)).getLast? with
  | none =>
    have hnil : trim (remove_special_tokens raw) = [] := by
      cases ht : trim (remove_special_tokens raw) with
      | nil => rfl
      | cons a as =>
        rw [ht] at hl
        rw [List.getLast?_eq_getLast _ (List.cons_ne_nil a as)] at hl
        simp at hl
    rw [hnil] at h
    simp [collapse_spaces] at h
  | some d =>
    have hd := trim_getLast _ d hl
    have hsp : d ≠ ' ' := by
      rintro rfl
      revert hd; decide
    rw [collapse_spaces_getLast _ d hsp 0 hl] at h
    simp only [Option.some.injEq] at h
    rw [← h]; exact hd

theorem cleaned_noDouble (raw : List Char) : NoDoubleSpace (cleaned raw) :=
  (collapse_spaces_noDouble _ 0).1

theorem tidy_cleaned (raw : List Char) : Tidy (cleaned raw) :=
  ⟨cleaned_head raw, cleaned_getLast raw, cleaned_noDouble raw⟩

theorem tidy_append_period (r : List Char) (h : Tidy r) : Tidy (r ++ ['.']) := by
  refine ⟨?_, ?_, ?_⟩
  · intro c hc
    cases r with
    | nil =>
      simp only [List.nil_append, List.head?_cons, Option.some.injEq] at hc
      subst hc; decide
    | cons a as => exact h.head c (by simpa using hc)
  · intro c hc
    rw [List.getLast?_concat] at hc
    simp only [Option.some.injEq] at hc
    subst hc; decide
  · unfold NoDoubleSpace
    apply List.Chain'.append h.noDouble (List.chain'_singleton _)
    intro x _ y hy
    simp only [List.head?_cons, Option.mem_def, Option.some.injEq] at hy
    subst hy
    rintro ⟨-, h2⟩
    revert h2; decide

theorem tidy_ensure_sentence_ending (r : List Char) (h : Tidy r) :
    Tidy (ensure_sentence_ending r) := by
  rcases ensure_sentence_ending_cases r with e | ⟨_, e⟩
  · rw [e]; exact h
  · rw [e]; exact tidy_append_period r h

theorem tidy_low_quality_msg : Tidy low_quality_msg := by
  refine ⟨?_, ?_, ?_⟩
  · intro c hc
    have : c = 'I' := by
      have h2 : low_quality_msg.head? = some 'I' := by decide
      rw [h2] at hc; exact (Option.some.inj hc).symm
    subst this; decide
  · intro c hc
    have : c = '?' := by
      have h2 : low_quality_msg.getLast? = some '?' := by decide
      rw [h2] at hc; exact (Option.some.inj hc).symm
    subst this; decide
  · have h : collapse_spaces 0 low_quality_msg = low_quality_msg := by decide
    rw [← h]; exact (collapse_spaces_noDouble _ 0).1

theorem tidy_empty_msg : Tidy empty_msg := by
  refine ⟨?_, ?_, ?_⟩
  · intro c hc
    have : c = 'I' := by
      have h2 : empty_msg.head? = some 'I' := by decide
      rw [h2] at hc; exact (Option.some.inj hc).symm
    subst this; decide
  · intro c hc
    have : c = '.' := by
      have h2 : empty_msg.getLast? = some '.' := by decide
      rw [h2] at hc; exact (Option.some.inj hc).symm
    subst this; decide
  · have h : collapse_spaces 0 empty_msg = empty_msg := by decide
    rw [← h]; exact (collapse_spaces_noDouble _ 0).1

/-- The result of the cleaning stage is one of the two messages or the cleaned
text, with or without a period. -/
theorem sanitize_cases (raw : List Char) :
    (raw = [] ∧ sanitize raw = empty_msg) ∨
    (raw ≠ [] ∧ (cleaned raw).length < 3 ∧ sanitize raw = low_quality_msg) ∨
    (3 ≤ (cleaned raw).length ∧ sanitize raw = ensure_sentence_ending (cleaned raw)) := by
  by_cases hraw : raw = []
  · subst hraw; exact Or.inl ⟨rfl, sanitize_nil⟩
  · by_cases hshort : (cleaned raw).length < 3
    · exact Or.inr (Or.inl ⟨hraw, hshort, sanitize_of_short raw hraw hshort⟩)
    · exact Or.inr (Or.inr ⟨by omega, sanitize_of_long raw (by omega)⟩)

theorem tidy_sanitize (raw : List Char) : Tidy (sanitize raw) := by
  rcases sanitize_cases raw with ⟨_, h⟩ | ⟨_, _, h⟩ | ⟨_, h⟩
  · rw [h]; exact tidy_empty_msg
  · rw [h]; exact tidy_low_quality_msg
  · rw [h]; exact tidy_ensure_sentence_ending _ (tidy_cleaned raw)

theorem cleaned_eq_self_of_tidy (r : List Char) (h : Tidy r)
    (hm : ∀ tok ∈ special_tokens, ¬ tok <:+: r) : cleaned r = r := by
  unfold cleaned
  rw [remove_special_tokens_eq_self r hm, trim_eq_self r h.head h.last,
    collapse_spaces_eq_self r 0 h.noDouble (fun h0 => absurd h0 (by omega))]

/-- Applying the cleaning stage to its own result changes nothing as long as
that result holds none of the six markers. -/
theorem sanitize_idempotent_of_marker_free (raw : List Char)
    (hm : ∀ tok ∈ special_tokens, ¬ tok <:+: sanitize raw) :
    sanitize (sanitize raw) = sanitize raw := by
  have hclean : cleaned (sanitize raw) = sanitize raw :=
    cleaned_eq_self_of_tidy _ (tidy_sanitize raw) hm
  rcases sanitize_cases raw with ⟨_, h⟩ | ⟨_, _, h⟩ | ⟨h3, h⟩
  · rw [h]; decide
  · rw [h]; decide
  · have hlen : 3 ≤ (cleaned (sanitize raw)).length := by
      rw [hclean, h]
      have := length_le_ensure_sentence_ending (cleaned raw)
      omega
    rw [sanitize_of_long _ hlen, hclean, h, ensure_sentence_ending_idem]

/-! ## C2 -/

/-- C2, evaluated at the raw text `<|im_<|end|>end|>`: the first pass of the
cleaning stage returns `<|im_end|>`, a second pass over that result returns
the low-quality message, so the stage is not idempotent there. -/
theorem sanitize_twice_nested_marker :
    sanitize "<|im_<|end|>end|>".toList = "<|im_end|>".toList ∧
    sanitize (sanitize "<|im_<|end|>end|>".toList) =
      "I'm not sure how to respond to that. Could you rephrase your question?".toList ∧
    sanitize (sanitize "<|im_<|end|>end|>".toList) ≠ sanitize "<|im_<|end|>end|>".toList := by
  decide

/-! ## C3 -/

/-- C3, evaluated at the raw text `<|im_<|end|>end|>`: the generation loop
builds this text from the two token texts `<|im_<|e` and `nd|>end|>`, neither
of which holds a marker, and the result of the cleaning stage still contains
the marker `<|im_end|>`. -/
theorem sanitize_keeps_nested_marker :
    has_end_token "<|im_<|e".toList = false ∧ has_end_token "nd|>end|>".toList = false ∧
    (generation_loop nestedMarkerRuntime (get_model_config "model.gguf".toList)
      "model.gguf".toList 50 ⟨[], 0, 0, []⟩).response = "<|im_<|end|>end|>".toList ∧
    "<|im_end|>".toList ∈ special_tokens ∧
    "<|im_end|>".toList <:+: sanitize "<|im_<|end|>end|>".toList := by
  refine ⟨by decide, by decide, by decide, by decide, ?_⟩
  have h : sanitize "<|im_<|end|>end|>".toList = "<|im_end|>".toList := by decide
  rw [h]

/-! ## C4 -/

/-- C4, counterexample: the cleaning stage does not turn `This is a test`
into `This is a test.`. -/
theorem sanitize_this_is_a_test_ne :
    sanitize "This is a test".toList ≠ "This is a test.".toList := by
  decide

/-- C4, amended: `This is a test` has 14 bytes, not more than 20, and is
returned unchanged, without a period. -/
theorem sanitize_this_is_a_test :
    "This is a test".toList.length = 14 ∧
    sanitize "This is a test".toList = "This is a test".toList := by
  decide

/-! ## The period rule for any text -/

/-- For any text whose cleaned form has at least 3 bytes, the cleaning stage
appends one `.` exactly when the cleaned form is longer than 20 and shorter
than 8180 bytes, its last byte is none of `.`, `!`, `?`, `"`, newline, it does
not end in `...` and it holds no `:`; otherwise the cleaned form is returned
unchanged. -/
theorem sanitize_period_rule (raw : List Char) (hlen : 3 ≤ (cleaned raw).length) :
    sanitize raw =
      if 20 < (cleaned raw).length ∧ (cleaned raw).length < 8180 ∧
          (∀ c ∈ ['.', '!', '?', '"', '\n'], (cleaned raw).getLast? ≠ some c) ∧
          ¬ "...".toList <:+ cleaned raw ∧ ':' ∉ cleaned raw
      then cleaned raw ++ ['.'] else cleaned raw := by
  rw [sanitize_of_long raw hlen, ensure_sentence_ending_eq]

/-! ## C6 -/

/-- C6: non-empty raw text whose cleaned form has fewer than 3 bytes gives the
low-quality message, and the raw text `a` is such a text. -/
theorem sanitize_low_quality :
    (∀ raw : List Char, raw ≠ [] → (cleaned raw).length < 3 →
      sanitize raw =
        "I'm not sure how to respond to that. Could you rephrase your question?".toList) ∧
    ("a".toList ≠ [] ∧ (cleaned "a".toList).length < 3) :=
  ⟨fun raw hne hshort => sanitize_of_short raw hne hshort, by decide, by decide⟩

/-- C6, witness: the raw text `a`. -/
theorem sanitize_low_quality_witness :
    "a".toList ≠ [] ∧ (cleaned "a".toList).length < 3 ∧
    sanitize "a".toList =
      "I'm not sure how to respond to that. Could you rephrase your question?".toList :=
  ⟨by decide, by decide, sanitize_low_quality.1 "a".toList (by decide) (by decide)⟩

/-! ## C7 -/

/-- C7, counterexample: the raw text of one space is empty after cleaning, and
the result is not the message `I'm having trouble generating a response right now.`. -/
theorem sanitize_blank_ne_empty_msg :
    cleaned " ".toList = [] ∧
    sanitize " ".toList ≠ "I'm having trouble generating a response right now.".toList := by
  decide

/-- C7, amended: the empty raw text gives the message `I'm having trouble
generating a response right now.`; non-empty raw text that is empty after
cleaning gives the low-quality message. -/
theorem sanitize_empty_after_cleaning :
    sanitize [] = "I'm having trouble generating a response right now.".toList ∧
    ∀ raw : List Char, raw ≠ [] → cleaned raw = [] →
      sanitize raw =
        "I'm not sure how to respond to that. Could you rephrase your question?".toList :=
  ⟨sanitize_nil, fun raw hne hc => sanitize_of_short raw hne (by rw [hc]; decide)⟩

/-- C7, witness: the raw text ` <|end|>\n`, made of whitespace and one marker. -/
theorem sanitize_empty_after_cleaning_witness :
    " <|end|>\n".toList ≠ [] ∧ cleaned " <|end|>\n".toList = [] ∧
    sanitize " <|end|>\n".toList =
      "I'm not sure how to respond to that. Could you rephrase your question?".toList :=
  ⟨by decide, by decide, sanitize_empty_after_cleaning.2 " <|end|>\n".toList (by decide) (by decide)⟩

/-! ## C8 -/

/-- C8: the result of the cleaning stage neither begins nor ends with a space,
tab, newline or carriage return and holds no two adjacent spaces; collapsing
removes spaces only, so every other byte of the trimmed text, tabs and
newlines included, is kept in place; and the result is the cleaned text, the
cleaned text with a period, or one of the two messages. -/
theorem sanitize_whitespace (raw : List Char) :
    (sanitize raw).head? ∉ [some ' ', some '\t', some '\n', some '\r'] ∧
    (sanitize raw).getLast? ∉ [some ' ', some '\t', some '\n', some '\r'] ∧
    ¬ [' ', ' '] <:+: sanitize raw ∧
    (cleaned raw).filter (fun c => c ≠ ' ')
      = (trim (remove_special_tokens raw)).filter (fun c => c ≠ ' ') ∧
    (cleaned raw).Sublist (trim (remove_special_tokens raw)) ∧
    (sanitize raw = cleaned raw ∨ sanitize raw = cleaned raw ++ ['.'] ∨
      sanitize raw = low_quality_msg ∨ sanitize raw = empty_msg) := by
  have ht := tidy_sanitize raw
  have hws : ∀ o : Option Char, (∀ c, o = some c → is_trim_char c = false) →
      o ∉ [some ' ', some '\t', some '\n', some '\r'] := by
    intro o ho hmem
    simp only [List.mem_cons, List.mem_singleton, List.not_mem_nil, or_false] at hmem
    rcases hmem with h | h | h | h <;> exact absurd (ho _ h) (by decide)
  refine ⟨hws _ ht.head, hws _ ht.last, noDoubleSpace_not_infix _ ht.noDouble,
    collapse_spaces_filter _ 0, collapse_spaces_sublist _ 0, ?_⟩
  rcases sanitize_cases raw with ⟨_, h⟩ | ⟨_, _, h⟩ | ⟨_, h⟩
  · exact Or.inr (Or.inr (Or.inr h))
  · exact Or.inr (Or.inr (Or.inl h))
  · rcases ensure_sentence_ending_cases (cleaned raw) with e | ⟨_, e⟩
    · exact Or.inl (h.trans e)
    · exact Or.inr (Or.inl (h.trans e))

/-! ## C9 -/

/-- C9: an unopenable path gives the not-found message; an openable file of
fewer than 1,000,000 bytes gives the corrupted-or-incomplete message whatever
its content; an openable file of at least 1,000,000 bytes whose first four
bytes are not `GGUF` gives the invalid-format message. -/
theorem run_llama_validation (rt : Runtime) (model_path prompt : List Char) :
    (rt.file model_path = none →
      (run_llama rt model_path prompt).result =
        "Error: Model file not found. Please download the model first.".toList) ∧
    (∀ content, rt.file model_path = some content → content.length < 1000000 →
      (run_llama rt model_path prompt).result =
        "Error: Model file appears to be corrupted or incomplete. Please re-download the model.".toList) ∧
    (∀ content, rt.file model_path = some content → 1000000 ≤ content.length →
      content.take 4 ≠ "GGUF".toList →
      (run_llama rt model_path prompt).result =
        "Error: Invalid model file format. Please ensure you have downloaded a valid GGUF model file.".toList) := by
  refine ⟨?_, ?_, ?_⟩
  · intro h
    simp only [run_llama, h]
  · intro content h hsmall
    have hs : (content.length : Int) < 1000000 := by exact_mod_cast hsmall
    simp only [run_llama, h, hs, if_true]
  · intro content h hbig hmagic
    have hs : ¬ (content.length : Int) < 1000000 := by
      have : (1000000 : Int) ≤ content.length := by exact_mod_cast hbig
      omega
    simp only [run_llama, h, hs, if_false, ne_eq, hmagic, not_false_eq_true, or_true, if_true]

/-- C9, witness: no file; a file holding just the four bytes `GGUF`; a file of
1,000,000 bytes `x`. -/
theorem run_llama_validation_witness :
    (run_llama (fileRuntime none) "m.gguf".toList "hi".toList).result =
      "Error: Model file not found. Please download the model first.".toList ∧
    (run_llama (fileRuntime (some "GGUF".toList)) "m.gguf".toList "hi".toList).result =
      "Error: Model file appears to be corrupted or incomplete. Please re-download the model.".toList ∧
    (run_llama (fileRuntime (some (List.replicate 1000000 'x'))) "m.gguf".toList "hi".toList).result =
      "Error: Invalid model file format. Please ensure you have downloaded a valid GGUF model file.".toList :=
  ⟨(run_llama_validation (fileRuntime none) "m.gguf".toList "hi".toList).1 rfl,
   (run_llama_validation (fileRuntime (some "GGUF".toList)) "m.gguf".toList "hi".toList).2.1
      "GGUF".toList rfl (by decide),
   (run_llama_validation (fileRuntime (some (List.replicate 1000000 'x'))) "m.gguf".toList
      "hi".toList).2.2 (List.replicate 1000000 'x') rfl
      (by rw [List.length_replicate])
      (by rw [List.take_replicate]; decide)⟩

/-! ## C10 -/

theorem near_full_iff (n cap : Int) :
    ((n : ℚ) > (cap : ℚ) * 0.9) ↔ 10 * n > 9 * cap := by
  have h9 : (0.9 : ℚ) = 9 / 10 := by norm_num
  rw [h9]
  constructor
  · intro h
    have h2 : (9 * cap : ℚ) < 10 * n := by linarith
    exact_mod_cast h2
  · intro h
    have h2 : (9 * cap : ℚ) < 10 * n := by exact_mod_cast h
    show (cap : ℚ) * (9 / 10) < n
    linarith

theorem generation_loop_trace_mem (rt : Runtime) (config : model_config_t)
    (model_path : List Char) (e : Event) :
    ∀ (fuel : Nat) (st : GenState), e ∈ st.trace →
      e ∈ (generation_loop rt config model_path fuel st).trace := by
  intro fuel
  induction fuel with
  | zero => intro st h; exact h
  | succ n ih =>
    intro st h
    unfold generation_loop
    dsimp only
    split_ifs
    all_goals first
      | exact h
      | (simp only [List.mem_append]; tauto)
      | (split
         · simp only [List.mem_append]; tauto
         · split_ifs
           all_goals first
             | (apply ih; simp only [List.mem_append]; tauto)
             | (simp only [List.mem_append]; tauto))

theorem get_model_config_cases (model_path : List Char) :
    get_model_config model_path = compactProfile ∨
      get_model_config model_path = defaultProfile := by
  unfold get_model_config compactProfile defaultProfile
  split_ifs
  · exact Or.inl rfl
  · exact Or.inl rfl
  · exact Or.inr rfl

/-- C10: once the model file is accepted and model, context and vocabulary
are obtained, a negative token count gives the too-long message; for a count
`n ≥ 0`, `run_llama` returns the nearly-full message without any `llama_decode`
call exactly when `10 * n > 9 * (context_size - max_tokens - 50)`; the capacity
is 176 with threshold `n ≥ 159` for the compact profile and 156 with threshold
`n ≥ 141` for the default profile. -/
theorem run_llama_prompt_budget (rt : Runtime) (model_path prompt content : List Char)
    (hfile : rt.file model_path = some content) (hsize : 1000000 ≤ content.length)
    (hmagic : content.take 4 = "GGUF".toList) (hmodel : rt.model_loads model_path = true)
    (hctx : rt.context_inits = true) (hvocab : rt.vocab_found = true) :
    let config := get_model_config model_path
    let max_prompt_tokens := config.context_size - config.max_tokens - 50
    let n := rt.llama_tokenize prompt max_prompt_tokens
    (n < 0 → (run_llama rt model_path prompt).result =
      "Conversation too long. Please start a new chat to continue.".toList) ∧
    (0 ≤ n →
      (((run_llama rt model_path prompt).result =
          "Context nearly full. Please start a new conversation for better responses.".toList ∧
        ∀ k, Event.llama_decode k ∉ (run_llama rt model_path prompt).trace) ↔
      10 * n > 9 * max_prompt_tokens)) ∧
    ((config = compactProfile ∧ max_prompt_tokens = 176 ∧
        (10 * n > 9 * max_prompt_tokens ↔ 159 ≤ n)) ∨
     (config = defaultProfile ∧ max_prompt_tokens = 156 ∧
        (10 * n > 9 * max_prompt_tokens ↔ 141 ≤ n))) := by
  intro config max_prompt_tokens n
  have hs : ¬ (content.length : Int) < 1000000 := by
    have : (1000000 : Int) ≤ content.length := by exact_mod_cast hsize
    omega
  have hhdr : ¬ (("GGUF".toList).length ≠ 4 ∨ "GGUF".toList ≠ "GGUF".toList) := by decide
  refine ⟨?_, ?_, ?_⟩
  · intro hneg
    simp only [run_llama, hfile, hs, if_false, hmagic, hhdr, hmodel, hctx, hvocab,
      not_true_eq_false]
    rw [if_pos hneg]
  · intro hnn
    have hneg : ¬ n < 0 := by omega
    rw [← near_full_iff]
    constructor
    · rintro ⟨-, hno⟩
      by_contra hfull
      apply hno n
      simp only [run_llama, hfile, hs, if_false, hmagic, hhdr, hmodel, hctx, hvocab,
        not_true_eq_false]
      rw [if_neg hneg, if_neg hfull]
      by_cases hdec : rt.decode_prompt ≠ 0
      · rw [if_pos hdec]
        simp
      · rw [if_neg hdec]
        simp only [List.mem_append]
        refine Or.inl (generation_loop_trace_mem _ _ _ _ _ _ ?_)
        simp
    · intro hfull
      simp only [run_llama, hfile, hs, if_false, hmagic, hhdr, hmodel, hctx, hvocab,
        not_true_eq_false]
      rw [if_neg hneg, if_pos hfull]
      refine ⟨rfl, ?_⟩
      intro k
      simp
  · rcases get_model_config_cases model_path with h | h
    · left
      have hcap : max_prompt_tokens = 176 := by
        show (get_model_config model_path).context_size
          - (get_model_config model_path).max_tokens - 50 = 176
        rw [h]; rfl
      refine ⟨h, hcap, ?_⟩
      rw [hcap]; omega
    · right
      have hcap : max_prompt_tokens = 156 := by
        show (get_model_config model_path).context_size
          - (get_model_config model_path).max_tokens - 50 = 156
        rw [h]; rfl
      refine ⟨h, hcap, ?_⟩
      rw [hcap]; omega

theorem tokenRuntime_file_length :
    1000000 ≤ ("GGUF".toList ++ List.replicate 999996 'x').length := by
  rw [List.length_append, List.length_replicate]
  decide

theorem tokenRuntime_file_magic :
    ("GGUF".toList ++ List.replicate 999996 'x').take 4 = "GGUF".toList :=
  List.take_left' rfl

/-- C10, witness: a well-formed model file of 1,000,000 bytes and the compact
profile (capacity 176); 159 prompt tokens give the nearly-full message without
a `llama_decode` call, a count of -1 gives the too-long message. -/
theorem run_llama_prompt_budget_witness :
    1000000 ≤ ("GGUF".toList ++ List.replicate 999996 'x').length ∧
    ("GGUF".toList ++ List.replicate 999996 'x').take 4 = "GGUF".toList ∧
    ((run_llama (tokenRuntime 159) "phi-3.gguf".toList "hi".toList).result =
        "Context nearly full. Please start a new conversation for better responses.".toList ∧
      ∀ k, Event.llama_decode k ∉
        (run_llama (tokenRuntime 159) "phi-3.gguf".toList "hi".toList).trace) ∧
    (run_llama (tokenRuntime (-1)) "phi-3.gguf".toList "hi".toList).result =
      "Conversation too long. Please start a new chat to continue.".toList :=
  ⟨tokenRuntime_file_length, tokenRuntime_file_magic,
   ((run_llama_prompt_budget (tokenRuntime 159) "phi-3.gguf".toList "hi".toList
      ("GGUF".toList ++ List.replicate 999996 'x') rfl tokenRuntime_file_length
      tokenRuntime_file_magic rfl rfl rfl).2.1 (by decide)).mpr (by decide),
   (run_llama_prompt_budget (tokenRuntime (-1)) "phi-3.gguf".toList "hi".toList
      ("GGUF".toList ++ List.replicate 999996 'x') rfl tokenRuntime_file_length
      tokenRuntime_file_magic rfl rfl rfl).1 (by decide)⟩

/-! ## The loop, round by round -/

theorem generation_loop_zero (rt : Runtime) (config : model_config_t) (model_path : List Char)
    (st : GenState) : generation_loop rt config model_path 0 st = st := rfl

theorem generation_loop_succ (rt : Runtime) (config : model_config_t) (model_path : List Char)
    (fuel : Nat) (st : GenState) :
    generation_loop rt config model_path (fuel + 1) st =
      if st.tokens_generated < config.max_tokens then
        match (loop_round rt config model_path st).2 with
        | some _ => (loop_round rt config model_path st).1
        | none => generation_loop rt config model_path fuel (loop_round rt config model_path st).1
      else st := by
  rw [generation_loop]
  unfold loop_round min_tokens
  dsimp only
  by_cases hg : st.tokens_generated < config.max_tokens
  swap
  · rw [if_neg hg, if_neg hg]
  rw [if_pos hg, if_pos hg]
  generalize rt.steps st.tokens_generated.toNat = step
  rcases step with ⟨eog, piece, decode⟩
  cases eog
  swap
  · simp only [if_true]
  cases piece with
  | none => simp only [Bool.false_eq_true, if_false]
  | some piece =>
    by_cases h1 : has_end_token (c_string piece) = true
    · simp only [h1, if_true, if_false, Bool.false_eq_true]
    by_cases h2 : st.response_len + (piece.length : Int) < 8190
    swap
    · simp only [h1, h2, if_true, if_false, Bool.false_eq_true]
    by_cases h3 : decode = 0
    swap
    · simp only [h1, h2, h3, if_true, if_false, Bool.false_eq_true, ne_eq, not_false_eq_true]
    by_cases h4 : st.response_len + (piece.length : Int) > 50
    swap
    · simp only [h1, h2, h3, h4, if_true, if_false, Bool.false_eq_true, ne_eq,
        not_true_eq_false]
    simp only [h1, h2, h3, h4, if_true, if_false, Bool.false_eq_true, ne_eq, not_true_eq_false]
    split_ifs <;> rfl

/-- The six ways through the loop body.  In the last four `piece` holds the
bytes `llama_token_to_piece` wrote: `token_len` is their number and
`token_text` is `c_string piece`. -/
theorem loop_round_cases (rt : Runtime) (config : model_config_t) (model_path : List Char)
    (st : GenState) :
    ((rt.steps st.tokens_generated.toNat).is_eog = true ∧
      loop_round rt config model_path st =
        ({ st with trace := st.trace ++ [Event.llama_sampler_sample] },
          some StopReason.end_of_generation)) ∨
    ((rt.steps st.tokens_generated.toNat).is_eog = false ∧
      (rt.steps st.tokens_generated.toNat).piece = none ∧
      loop_round rt config model_path st =
        ({ st with trace := st.trace ++ [Event.llama_sampler_sample] ++
            [Event.llama_sampler_accept, Event.llama_token_to_piece] },
          some StopReason.piece_failed)) ∨
    (∃ piece, (rt.steps st.tokens_generated.toNat).is_eog = false ∧
      (rt.steps st.tokens_generated.toNat).piece = some piece ∧
      has_end_token (c_string piece) = true ∧
      loop_round rt config model_path st =
        ({ st with trace := st.trace ++ [Event.llama_sampler_sample] ++
            [Event.llama_sampler_accept, Event.llama_token_to_piece] },
          some StopReason.end_token)) ∨
    (∃ piece, (rt.steps st.tokens_generated.toNat).is_eog = false ∧
      (rt.steps st.tokens_generated.toNat).piece = some piece ∧
      has_end_token (c_string piece) = false ∧
      ¬ st.response_len + (piece.length : Int) < 8190 ∧
      loop_round rt config model_path st =
        ({ st with trace := st.trace ++ [Event.llama_sampler_sample] ++
            [Event.llama_sampler_accept, Event.llama_token_to_piece] },
          some StopReason.buffer_full)) ∨
    (∃ piece, (rt.steps st.tokens_generated.toNat).is_eog = false ∧
      (rt.steps st.tokens_generated.toNat).piece = some piece ∧
      has_end_token (c_string piece) = false ∧
      st.response_len + (piece.length : Int) < 8190 ∧
      (rt.steps st.tokens_generated.toNat).decode ≠ 0 ∧
      loop_round rt config model_path st =
        ({ st with response := st.response ++ c_string piece,
                   response_len := st.response_len + (piece.length : Int),
                   trace := st.trace ++ [Event.llama_sampler_sample] ++
                     [Event.llama_sampler_accept, Event.llama_token_to_piece] ++
                     [Event.llama_decode 1] },
          some StopReason.decode_failed)) ∨
    (∃ piece, (rt.steps st.tokens_generated.toNat).is_eog = false ∧
      (rt.steps st.tokens_generated.toNat).piece = some piece ∧
      has_end_token (c_string piece) = false ∧
      st.response_len + (piece.length : Int) < 8190 ∧
      (rt.steps st.tokens_generated.toNat).decode = 0 ∧
      loop_round rt config model_path st =
        ({ response := st.response ++ c_string piece,
           response_len := st.response_len + (piece.length : Int),
           tokens_generated := st.tokens_generated + 1,
           trace := st.trace ++ [Event.llama_sampler_sample] ++
             [Event.llama_sampler_accept, Event.llama_token_to_piece] ++
             [Event.llama_decode 1] },
          heuristic_stop config model_path (st.response_len + (piece.length : Int))
            (st.tokens_generated + 1) (c_string piece))) := by
  unfold loop_round heuristic_stop
  dsimp only
  generalize rt.steps st.tokens_generated.toNat = step
  rcases step with ⟨eog, piece, decode⟩
  cases eog
  swap
  · left
    exact ⟨rfl, by simp only [if_true]⟩
  right
  cases piece with
  | none =>
    left
    exact ⟨rfl, rfl, by simp only [Bool.false_eq_true, if_false]⟩
  | some piece =>
    right
    by_cases h1 : has_end_token (c_string piece) = true
    · left
      exact ⟨piece, rfl, rfl, h1, by
        simp only [h1, if_true, if_false, Bool.false_eq_true]⟩
    right
    have h1f : has_end_token (c_string piece) = false := by simpa using h1
    by_cases h2 : st.response_len + (piece.length : Int) < 8190
    swap
    · left
      exact ⟨piece, rfl, rfl, h1f, h2, by
        simp only [h1, h2, if_true, if_false, Bool.false_eq_true]⟩
    right
    by_cases h3 : decode = 0
    swap
    · left
      exact ⟨piece, rfl, rfl, h1f, h2, h3, by
        simp only [h1, h2, h3, if_true, if_false, Bool.false_eq_true, ne_eq,
          not_false_eq_true]⟩
    right
    refine ⟨piece, rfl, rfl, h1f, h2, h3, ?_⟩
    simp only [h1, h2, h3, if_true, if_false, Bool.false_eq_true, ne_eq, not_true_eq_false]
    split_ifs <;> rfl

/-! ## What one round does to the loop variables -/

theorem tokens_fed_append (a b : List Event) :
    tokens_fed (a ++ b) = tokens_fed a + tokens_fed b := by
  induction a with
  | nil => simp [tokens_fed]
  | cons e es ih =>
    cases e <;> simp [tokens_fed, ih, add_assoc]

theorem rounds_append (a b : List Event) : rounds (a ++ b) = rounds a + rounds b := by
  unfold rounds
  exact List.count_append _ _ _

theorem loop_round_tokens (rt : Runtime) (config : model_config_t) (model_path : List Char)
    (st : GenState) :
    st.tokens_generated ≤ (loop_round rt config model_path st).1.tokens_generated ∧
    (loop_round rt config model_path st).1.tokens_generated ≤ st.tokens_generated + 1 ∧
    ((loop_round rt config model_path st).2 = none →
      (loop_round rt config model_path st).1.tokens_generated = st.tokens_generated + 1) := by
  rcases loop_round_cases rt config model_path st with
    ⟨_, h⟩ | ⟨_, _, h⟩ | ⟨t, _, _, _, h⟩ | ⟨t, _, _, _, _, h⟩ | ⟨t, _, _, _, _, _, h⟩ |
    ⟨t, _, _, _, _, _, h⟩
  all_goals rw [h]
  all_goals simp

theorem loop_round_rounds (rt : Runtime) (config : model_config_t) (model_path : List Char)
    (st : GenState) :
    rounds (loop_round rt config model_path st).1.trace = rounds st.trace + 1 := by
  rcases loop_round_cases rt config model_path st with
    ⟨_, h⟩ | ⟨_, _, h⟩ | ⟨t, _, _, _, h⟩ | ⟨t, _, _, _, _, h⟩ | ⟨t, _, _, _, _, _, h⟩ |
    ⟨t, _, _, _, _, _, h⟩
  all_goals rw [h]
  all_goals simp only [rounds_append]
  all_goals simp [rounds]

theorem loop_round_fed (rt : Runtime) (config : model_config_t) (model_path : List Char)
    (st : GenState) :
    tokens_fed (loop_round rt config model_path st).1.trace ≤ tokens_fed st.trace + 1 := by
  rcases loop_round_cases rt config model_path st with
    ⟨_, h⟩ | ⟨_, _, h⟩ | ⟨t, _, _, _, h⟩ | ⟨t, _, _, _, _, h⟩ | ⟨t, _, _, _, _, _, h⟩ |
    ⟨t, _, _, _, _, _, h⟩
  all_goals rw [h]
  all_goals simp only [tokens_fed_append]
  all_goals simp [tokens_fed]

theorem length_c_string_le (buffer : List Char) :
    (c_string buffer).length ≤ buffer.length :=
  (List.takeWhile_sublist _).length_le

theorem nul_not_mem_c_string (buffer : List Char) : '\x00' ∉ c_string buffer := by
  intro h
  have := List.mem_takeWhile_imp h
  simp at this

/-- The text in `response` has at most `response_len` bytes, none of them a
NUL, and leaves room in the 8192-byte buffer: these facts survive a round. -/
theorem loop_round_buffer (rt : Runtime) (config : model_config_t) (model_path : List Char)
    (st : GenState) (hlen : (st.response.length : Int) ≤ st.response_len)
    (hnul : '\x00' ∉ st.response) (hcap : st.response_len < 8190) :
    ((loop_round rt config model_path st).1.response.length : Int) ≤
      (loop_round rt config model_path st).1.response_len ∧
    '\x00' ∉ (loop_round rt config model_path st).1.response ∧
    (loop_round rt config model_path st).1.response_len < 8190 := by
  rcases loop_round_cases rt config model_path st with
    ⟨_, h⟩ | ⟨_, _, h⟩ | ⟨t, _, _, _, h⟩ | ⟨t, _, _, _, _, h⟩ | ⟨t, _, _, _, hfit, _, h⟩ |
    ⟨t, _, _, _, hfit, _, h⟩
  · rw [h]; exact ⟨hlen, hnul, hcap⟩
  · rw [h]; exact ⟨hlen, hnul, hcap⟩
  · rw [h]; exact ⟨hlen, hnul, hcap⟩
  · rw [h]; exact ⟨hlen, hnul, hcap⟩
  · rw [h]
    have hc := length_c_string_le t
    refine ⟨?_, ?_, hfit⟩
    · simp only [List.length_append, Nat.cast_add]
      omega
    · simp only [List.mem_append, not_or]
      exact ⟨hnul, nul_not_mem_c_string t⟩
  · rw [h]
    have hc := length_c_string_le t
    refine ⟨?_, ?_, hfit⟩
    · simp only [List.length_append, Nat.cast_add]
      omega
    · simp only [List.mem_append, not_or]
      exact ⟨hnul, nul_not_mem_c_string t⟩

/-! ## Runs that reach the loop -/

theorem run_llama_of_checks (rt : Runtime) (model_path prompt : List Char)
    (h : ChecksPass rt model_path prompt) :
    run_llama rt model_path prompt =
      if rt.decode_prompt ≠ 0 then
        ⟨"Error: Failed to process prompt".toList,
          [Event.llama_backend_init, Event.fopen, Event.fclose,
           Event.llama_model_load_from_file, Event.llama_init_from_model,
           Event.llama_model_get_vocab, Event.malloc_tokens, Event.llama_tokenize,
           Event.llama_decode (prompt_tokens rt model_path prompt),
           Event.llama_free, Event.llama_model_free, Event.llama_backend_free]⟩
      else
        ⟨sanitize (generated rt model_path prompt).response,
          (generated rt model_path prompt).trace ++
            [Event.llama_sampler_free, Event.free_tokens, Event.llama_free,
             Event.llama_model_free, Event.llama_backend_free]⟩ := by
  obtain ⟨⟨content, hfile, hsize, hmagic⟩, hmodel, hctx, hvocab, hn0, hn1⟩ := h
  have hs : ¬ (content.length : Int) < 1000000 := by
    have : (1000000 : Int) ≤ content.length := by exact_mod_cast hsize
    omega
  have hhdr : ¬ (("GGUF".toList).length ≠ 4 ∨ "GGUF".toList ≠ "GGUF".toList) := by decide
  have hneg : ¬ prompt_tokens rt model_path prompt < 0 := by omega
  unfold prompt_tokens max_prompt_tokens at hneg hn1
  simp only [run_llama, hfile, hs, if_false, hmagic, hhdr, hmodel, hctx, hvocab,
    not_true_eq_false]
  rw [if_neg hneg, if_neg hn1]
  split_ifs
  · rfl
  · rfl

theorem tokenRuntime_checks (n : Int) (h0 : 0 ≤ n) (h1 : 10 * n ≤ 9 * 176) :
    ChecksPass (tokenRuntime n) "phi-3.gguf".toList "hi".toList where
  file := ⟨_, rfl, tokenRuntime_file_length, tokenRuntime_file_magic⟩
  model := rfl
  context := rfl
  vocab := rfl
  count_nonneg := h0
  count_fits := by
    rw [near_full_iff]
    have hcap : max_prompt_tokens "phi-3.gguf".toList = 176 := by decide
    have hn : prompt_tokens (tokenRuntime n) "phi-3.gguf".toList "hi".toList = n := rfl
    rw [hcap, hn]
    omega

/-! ## Induction over the rounds -/

/-- An invariant `P` kept by every round that goes on, with `Q` following
from `P` where the loop is left, gives `Q` for the final loop variables. -/
theorem generation_loop_induct (rt : Runtime) (config : model_config_t)
    (model_path : List Char) (P Q : GenState → Prop)
    (hcont : ∀ st, P st → st.tokens_generated < config.max_tokens →
      (loop_round rt config model_path st).2 = none → P (loop_round rt config model_path st).1)
    (hstop : ∀ st r, P st → st.tokens_generated < config.max_tokens →
      (loop_round rt config model_path st).2 = some r → Q (loop_round rt config model_path st).1)
    (hexit : ∀ st, P st → Q st) :
    ∀ (fuel : Nat) (st : GenState), P st → Q (generation_loop rt config model_path fuel st) := by
  intro fuel
  induction fuel with
  | zero => intro st hP; exact hexit st hP
  | succ n ih =>
    intro st hP
    rw [generation_loop_succ]
    by_cases hg : st.tokens_generated < config.max_tokens
    · rw [if_pos hg]
      cases hr : (loop_round rt config model_path st).2 with
      | none => exact ih _ (hcont st hP hg hr)
      | some r => exact hstop st r hP hg hr
    · rw [if_neg hg]; exact hexit st hP

theorem loop_exit_succ (rt : Runtime) (config : model_config_t) (model_path : List Char)
    (fuel : Nat) (st : GenState) :
    loop_exit rt config model_path (fuel + 1) st =
      if st.tokens_generated < config.max_tokens then
        match (loop_round rt config model_path st).2 with
        | some reason => LoopExit.stopped reason
        | none => loop_exit rt config model_path fuel (loop_round rt config model_path st).1
      else LoopExit.budget_exhausted := rfl

/-- The same rule for the way the loop is left. -/
theorem loop_exit_induct (rt : Runtime) (config : model_config_t)
    (model_path : List Char) (P : GenState → Prop) (R : LoopExit → Prop)
    (hcont : ∀ st, P st → st.tokens_generated < config.max_tokens →
      (loop_round rt config model_path st).2 = none → P (loop_round rt config model_path st).1)
    (hstop : ∀ st r, P st → st.tokens_generated < config.max_tokens →
      (loop_round rt config model_path st).2 = some r → R (LoopExit.stopped r))
    (hbudget : R LoopExit.budget_exhausted) (hfuel : R LoopExit.out_of_fuel) :
    ∀ (fuel : Nat) (st : GenState), P st → R (loop_exit rt config model_path fuel st) := by
  intro fuel
  induction fuel with
  | zero =>
    intro st _
    unfold loop_exit
    split_ifs
    · exact hfuel
    · exact hbudget
  | succ n ih =>
    intro st hP
    rw [loop_exit_succ]
    by_cases hg : st.tokens_generated < config.max_tokens
    · rw [if_pos hg]
      cases hr : (loop_round rt config model_path st).2 with
      | none => exact ih _ (hcont st hP hg hr)
      | some r => exact hstop st r hP hg hr
    · rw [if_neg hg]; exact hbudget

/-! ## Termination of the loop -/

/-- With a bound of at least `max_tokens - tokens_generated` rounds the model
of the loop is left by a `break` or by the loop condition, never by the bound. -/
theorem loop_exit_ne_out_of_fuel (rt : Runtime) (config : model_config_t)
    (model_path : List Char) :
    ∀ (fuel : Nat) (st : GenState), (config.max_tokens - st.tokens_generated).toNat ≤ fuel →
      loop_exit rt config model_path fuel st ≠ LoopExit.out_of_fuel := by
  intro fuel
  induction fuel with
  | zero =>
    intro st h
    have hg : ¬ st.tokens_generated < config.max_tokens := by omega
    simp [loop_exit, hg]
  | succ n ih =>
    intro st h
    rw [loop_exit_succ]
    by_cases hg : st.tokens_generated < config.max_tokens
    · rw [if_pos hg]
      cases hr : (loop_round rt config model_path st).2 with
      | none =>
        have ht := (loop_round_tokens rt config model_path st).2.2 hr
        exact ih _ (by rw [ht]; omega)
      | some r => simp
    · rw [if_neg hg]; simp

/-- A larger bound on the number of rounds gives the same final loop variables. -/
theorem generation_loop_stable (rt : Runtime) (config : model_config_t)
    (model_path : List Char) :
    ∀ (fuel : Nat) (st : GenState), (config.max_tokens - st.tokens_generated).toNat ≤ fuel →
      ∀ k, generation_loop rt config model_path (fuel + k) st =
        generation_loop rt config model_path fuel st := by
  intro fuel
  induction fuel with
  | zero =>
    intro st h k
    have hg : ¬ st.tokens_generated < config.max_tokens := by omega
    cases k with
    | zero => rfl
    | succ j =>
      rw [show 0 + (j + 1) = j + 1 from by omega, generation_loop_succ, if_neg hg]
      rfl
  | succ n ih =>
    intro st h k
    rw [show n + 1 + k = (n + k) + 1 from by omega, generation_loop_succ, generation_loop_succ]
    by_cases hg : st.tokens_generated < config.max_tokens
    · rw [if_pos hg, if_pos hg]
      cases hr : (loop_round rt config model_path st).2 with
      | none =>
        have ht := (loop_round_tokens rt config model_path st).2.2 hr
        exact ih _ (by rw [ht]; omega) k
      | some r => rfl
    · rw [if_neg hg, if_neg hg]

/-- A run of the loop left by the loop condition ends with
`tokens_generated = max_tokens`. -/
theorem generation_loop_budget (rt : Runtime) (config : model_config_t)
    (model_path : List Char) :
    ∀ (fuel : Nat) (st : GenState), st.tokens_generated ≤ config.max_tokens →
      loop_exit rt config model_path fuel st = LoopExit.budget_exhausted →
      (generation_loop rt config model_path fuel st).tokens_generated = config.max_tokens := by
  intro fuel
  induction fuel with
  | zero =>
    intro st hle hx
    unfold loop_exit at hx
    split_ifs at hx with hg
    rw [generation_loop_zero]
    omega
  | succ n ih =>
    intro st hle hx
    rw [loop_exit_succ] at hx
    rw [generation_loop_succ]
    by_cases hg : st.tokens_generated < config.max_tokens
    · rw [if_pos hg] at hx ⊢
      cases hr : (loop_round rt config model_path st).2 with
      | none =>
        rw [hr] at hx
        have ht := (loop_round_tokens rt config model_path st).2.2 hr
        exact ih _ (by rw [ht]; omega) hx
      | some r =>
        rw [hr] at hx
        simp at hx
    · rw [if_neg hg]
      omega

/-- Whatever bound the model is given, a run from `st` makes at most
`max_tokens - tokens_generated` rounds and keeps `tokens_generated ≤ max_tokens`. -/
theorem generation_loop_rounds (rt : Runtime) (config : model_config_t)
    (model_path : List Char) (fuel : Nat) (st : GenState)
    (hle : st.tokens_generated ≤ config.max_tokens) :
    (generation_loop rt config model_path fuel st).tokens_generated ≤ config.max_tokens ∧
    (rounds (generation_loop rt config model_path fuel st).trace : Int) ≤
      rounds st.trace + (config.max_tokens - st.tokens_generated) := by
  apply generation_loop_induct rt config model_path
    (fun s => s.tokens_generated ≤ config.max_tokens ∧
      (rounds s.trace : Int) + (config.max_tokens - s.tokens_generated) ≤
        rounds st.trace + (config.max_tokens - st.tokens_generated))
    (fun s => s.tokens_generated ≤ config.max_tokens ∧
      (rounds s.trace : Int) ≤ rounds st.trace + (config.max_tokens - st.tokens_generated))
  · intro s hP hg hr
    have ht := (loop_round_tokens rt config model_path s).2.2 hr
    have hn := loop_round_rounds rt config model_path s
    rw [ht, hn]
    push_cast
    constructor <;> omega
  · intro s r hP hg _
    have ht := (loop_round_tokens rt config model_path s).2.1
    have hn := loop_round_rounds rt config model_path s
    rw [hn]
    push_cast
    constructor <;> omega
  · intro s hP
    constructor <;> omega
  · constructor <;> omega

theorem max_tokens_nonneg (model_path : List Char) :
    0 ≤ (get_model_config model_path).max_tokens := by
  rcases get_model_config_cases model_path with h | h <;> rw [h] <;> decide

theorem rounds_prompt_trace (n : Int) : rounds (prompt_trace n) = 0 := by
  simp [rounds, prompt_trace]

/-! ## C11 -/

/-- C11: for every runtime, path and prompt, the generation loop of
`run_llama` is left by a `break` or by its loop condition (the bound of the
model is never what ends it, and a larger bound changes nothing), after at
most `max_tokens` rounds and with `tokens_generated ≤ max_tokens`; a run in
which no `break` is taken ends with `tokens_generated = max_tokens`; and when
the checks before the loop pass and the prompt is decoded, the value returned
is the cleaning stage applied to the text the loop built. -/
theorem generation_loop_terminates (rt : Runtime) (model_path prompt : List Char) :
    loop_exit rt (get_model_config model_path) model_path
        (get_model_config model_path).max_tokens.toNat
        (loop_start (prompt_tokens rt model_path prompt)) ≠ LoopExit.out_of_fuel ∧
    (∀ k, generation_loop rt (get_model_config model_path) model_path
        ((get_model_config model_path).max_tokens.toNat + k)
        (loop_start (prompt_tokens rt model_path prompt)) = generated rt model_path prompt) ∧
    (rounds (generated rt model_path prompt).trace : Int) ≤
      (get_model_config model_path).max_tokens ∧
    (generated rt model_path prompt).tokens_generated ≤
      (get_model_config model_path).max_tokens ∧
    (loop_exit rt (get_model_config model_path) model_path
        (get_model_config model_path).max_tokens.toNat
        (loop_start (prompt_tokens rt model_path prompt)) = LoopExit.budget_exhausted →
      (generated rt model_path prompt).tokens_generated =
        (get_model_config model_path).max_tokens) ∧
    (ChecksPass rt model_path prompt → rt.decode_prompt = 0 →
      (run_llama rt model_path prompt).result =
        sanitize (generated rt model_path prompt).response) := by
  have hmax := max_tokens_nonneg model_path
  have hstart : (loop_start (prompt_tokens rt model_path prompt)).tokens_generated = 0 := rfl
  have hfuel : ((get_model_config model_path).max_tokens -
      (loop_start (prompt_tokens rt model_path prompt)).tokens_generated).toNat ≤
      (get_model_config model_path).max_tokens.toNat := by
    rw [hstart]; simp
  have hle : (loop_start (prompt_tokens rt model_path prompt)).tokens_generated ≤
      (get_model_config model_path).max_tokens := by rw [hstart]; exact hmax
  have hr := generation_loop_rounds rt (get_model_config model_path) model_path
    (get_model_config model_path).max_tokens.toNat _ hle
  refine ⟨loop_exit_ne_out_of_fuel _ _ _ _ _ hfuel,
    generation_loop_stable _ _ _ _ _ hfuel, ?_, hr.1,
    generation_loop_budget _ _ _ _ _ hle, ?_⟩
  · have h2 := hr.2
    have h0 : rounds (loop_start (prompt_tokens rt model_path prompt)).trace = 0 :=
      rounds_prompt_trace _
    rw [h0, hstart] at h2
    simpa [generated] using h2
  · intro hc hdec
    rw [run_llama_of_checks rt model_path prompt hc, if_neg (by simp [hdec])]

theorem steadyRuntime_checks :
    ChecksPass steadyRuntime "phi-3.gguf".toList "hi".toList where
  file := ⟨_, rfl, tokenRuntime_file_length, tokenRuntime_file_magic⟩
  model := rfl
  context := rfl
  vocab := rfl
  count_nonneg := by decide
  count_fits := by
    rw [near_full_iff]
    decide

/-- C11, witness: a run with a well-formed model file in which no `break` is
taken: 29 tokens `a` and then tokens `.`, under the budget of 30 tokens of the
path `phi-3.gguf`.  The loop is left by its condition with
`tokens_generated = 30`, and the value returned is the cleaning stage applied
to the 30 bytes the loop built. -/
theorem generation_loop_terminates_witness :
    loop_exit steadyRuntime (get_model_config "phi-3.gguf".toList) "phi-3.gguf".toList
        (get_model_config "phi-3.gguf".toList).max_tokens.toNat
        (loop_start (prompt_tokens steadyRuntime "phi-3.gguf".toList "hi".toList)) =
      LoopExit.budget_exhausted ∧
    (generated steadyRuntime "phi-3.gguf".toList "hi".toList).tokens_generated =
      (get_model_config "phi-3.gguf".toList).max_tokens ∧
    (get_model_config "phi-3.gguf".toList).max_tokens = 30 ∧
    ChecksPass steadyRuntime "phi-3.gguf".toList "hi".toList ∧
    steadyRuntime.decode_prompt = 0 ∧
    (run_llama steadyRuntime "phi-3.gguf".toList "hi".toList).result =
      sanitize (generated steadyRuntime "phi-3.gguf".toList "hi".toList).response ∧
    sanitize (generated steadyRuntime "phi-3.gguf".toList "hi".toList).response =
      "aaaaaaaaaaaaaaaaaaaaaaaaaaaaa.".toList :=
  ⟨by decide,
   (generation_loop_terminates steadyRuntime "phi-3.gguf".toList "hi".toList).2.2.2.2.1
     (by decide),
   by decide, steadyRuntime_checks, rfl,
   (generation_loop_terminates steadyRuntime "phi-3.gguf".toList "hi".toList).2.2.2.2.2
     steadyRuntime_checks rfl,
   by decide⟩

/-! ## C12 -/

theorem generation_loop_buffer (rt : Runtime) (config : model_config_t)
    (model_path : List Char) (fuel : Nat) (st : GenState)
    (hlen : (st.response.length : Int) ≤ st.response_len) (hnul : '\x00' ∉ st.response)
    (hcap : st.response_len < 8190) :
    ((generation_loop rt config model_path fuel st).response.length : Int) ≤
      (generation_loop rt config model_path fuel st).response_len ∧
    '\x00' ∉ (generation_loop rt config model_path fuel st).response ∧
    (generation_loop rt config model_path fuel st).response_len < 8190 := by
  apply generation_loop_induct rt config model_path
    (fun s => (s.response.length : Int) ≤ s.response_len ∧ '\x00' ∉ s.response ∧
      s.response_len < 8190)
    (fun s => (s.response.length : Int) ≤ s.response_len ∧ '\x00' ∉ s.response ∧
      s.response_len < 8190)
  · intro s hP _ _
    exact loop_round_buffer rt config model_path s hP.1 hP.2.1 hP.2.2
  · intro s _ hP _ _
    exact loop_round_buffer rt config model_path s hP.1 hP.2.1 hP.2.2
  · intro s hP; exact hP
  · exact ⟨hlen, hnul, hcap⟩

/-- C12: whatever bytes the runtime decodes for the tokens, after any number
of rounds the text in `response` holds no NUL, has at most `response_len`
bytes, `response_len` is below 8190, and so the text with its terminator takes
at most 8192 bytes; and a round whose token would bring `response_len` to 8190
or more leaves the loop through the `break` of line 202 with `response` and
`response_len` unchanged. -/
theorem response_buffer_safe (rt : Runtime) (config : model_config_t)
    (model_path : List Char) :
    (∀ (fuel : Nat) (n_tokens : Int),
      '\x00' ∉ (generation_loop rt config model_path fuel (loop_start n_tokens)).response ∧
      ((generation_loop rt config model_path fuel (loop_start n_tokens)).response.length : Int)
        ≤ (generation_loop rt config model_path fuel (loop_start n_tokens)).response_len ∧
      (generation_loop rt config model_path fuel (loop_start n_tokens)).response_len < 8190 ∧
      (generation_loop rt config model_path fuel (loop_start n_tokens)).response.length + 1
        ≤ 8192) ∧
    (∀ (st : GenState) (piece : List Char),
      (rt.steps st.tokens_generated.toNat).is_eog = false →
      (rt.steps st.tokens_generated.toNat).piece = some piece →
      has_end_token (c_string piece) = false →
      st.response_len + (piece.length : Int) ≥ 8190 →
      (loop_round rt config model_path st).2 = some StopReason.buffer_full ∧
      (loop_round rt config model_path st).1.response = st.response ∧
      (loop_round rt config model_path st).1.response_len = st.response_len) := by
  constructor
  · intro fuel n_tokens
    have h := generation_loop_buffer rt config model_path fuel (loop_start n_tokens)
      (show ((0 : Nat) : Int) ≤ 0 by decide) (by simp [loop_start])
      (show (0 : Int) < 8190 by decide)
    refine ⟨h.2.1, h.1, h.2.2, ?_⟩
    have h1 := h.1
    have h2 := h.2.2
    omega
  · intro st piece heog hpiece hend hfull
    rcases loop_round_cases rt config model_path st with
      ⟨he, _⟩ | ⟨_, hp, _⟩ | ⟨t, _, hp, ht, _⟩ | ⟨t, _, hp, _, _, h⟩ |
      ⟨t, _, hp, _, hfit, _, _⟩ | ⟨t, _, hp, _, hfit, _, _⟩
    · rw [heog] at he; exact absurd he (by decide)
    · rw [hpiece] at hp; exact absurd hp (by simp)
    · rw [hpiece] at hp
      cases hp
      rw [hend] at ht; exact absurd ht (by decide)
    · rw [h]; exact ⟨rfl, rfl, rfl⟩
    · rw [hpiece] at hp
      cases hp
      omega
    · rw [hpiece] at hp
      cases hp
      omega

/-! ## C13 -/

theorem promptFailRuntime_checks :
    ChecksPass promptFailRuntime "phi-3.gguf".toList "hi".toList where
  file := ⟨_, rfl, tokenRuntime_file_length, tokenRuntime_file_magic⟩
  model := rfl
  context := rfl
  vocab := rfl
  count_nonneg := by decide
  count_fits := by
    rw [near_full_iff]
    decide

theorem run_llama_near_full_trace (rt : Runtime) (model_path prompt : List Char)
    (hfile : ∃ content, rt.file model_path = some content ∧ 1000000 ≤ content.length ∧
      content.take 4 = "GGUF".toList)
    (hmodel : rt.model_loads model_path = true) (hctx : rt.context_inits = true)
    (hvocab : rt.vocab_found = true) (hn0 : 0 ≤ prompt_tokens rt model_path prompt)
    (hfull : 10 * prompt_tokens rt model_path prompt > 9 * max_prompt_tokens model_path) :
    (run_llama rt model_path prompt).trace =
      [Event.llama_backend_init, Event.fopen, Event.fclose,
       Event.llama_model_load_from_file, Event.llama_init_from_model,
       Event.llama_model_get_vocab, Event.malloc_tokens, Event.llama_tokenize,
       Event.free_tokens, Event.llama_free, Event.llama_model_free,
       Event.llama_backend_free] := by
  obtain ⟨content, hfile, hsize, hmagic⟩ := hfile
  have hs : ¬ (content.length : Int) < 1000000 := by
    have : (1000000 : Int) ≤ content.length := by exact_mod_cast hsize
    omega
  have hhdr : ¬ (("GGUF".toList).length ≠ 4 ∨ "GGUF".toList ≠ "GGUF".toList) := by decide
  have hneg : ¬ prompt_tokens rt model_path prompt < 0 := by omega
  rw [← near_full_iff] at hfull
  unfold prompt_tokens max_prompt_tokens at hneg hfull
  simp only [run_llama, hfile, hs, if_false, hmagic, hhdr, hmodel, hctx, hvocab,
    not_true_eq_false]
  rw [if_neg hneg, if_pos hfull]
  rfl

/-- C13, evaluated at a run whose prompt decoding fails: `run_llama` returns
`Error: Failed to process prompt` after the calls listed, which hold
`malloc_tokens` but no `free_tokens`, so the prompt token buffer is not
released; the nearly-full path just before it does release the buffer. -/
theorem prompt_failure_keeps_token_buffer :
    (run_llama promptFailRuntime "phi-3.gguf".toList "hi".toList).result =
      "Error: Failed to process prompt".toList ∧
    (run_llama promptFailRuntime "phi-3.gguf".toList "hi".toList).trace =
      [Event.llama_backend_init, Event.fopen, Event.fclose,
       Event.llama_model_load_from_file, Event.llama_init_from_model,
       Event.llama_model_get_vocab, Event.malloc_tokens, Event.llama_tokenize,
       Event.llama_decode 10,
       Event.llama_free, Event.llama_model_free, Event.llama_backend_free] ∧
    Event.malloc_tokens ∈ (run_llama promptFailRuntime "phi-3.gguf".toList "hi".toList).trace ∧
    Event.free_tokens ∉ (run_llama promptFailRuntime "phi-3.gguf".toList "hi".toList).trace ∧
    Event.free_tokens ∈ (run_llama (tokenRuntime 159) "phi-3.gguf".toList "hi".toList).trace := by
  have h := run_llama_of_checks promptFailRuntime "phi-3.gguf".toList "hi".toList
    promptFailRuntime_checks
  rw [if_pos (show promptFailRuntime.decode_prompt ≠ 0 by decide)] at h
  have hsib := run_llama_near_full_trace (tokenRuntime 159) "phi-3.gguf".toList "hi".toList
    ⟨_, rfl, tokenRuntime_file_length, tokenRuntime_file_magic⟩ rfl rfl rfl
    (by decide) (by decide)
  rw [h, hsib]
  exact ⟨rfl, rfl, by decide, by decide, by decide⟩

/-! ## The two heuristic stops -/

theorem drift_iff (t max_tokens : Int) :
    ((t : ℚ) > (max_tokens : ℚ) * 0.8) ↔ 5 * t > 4 * max_tokens := by
  have h8 : (0.8 : ℚ) = 4 / 5 := by norm_num
  rw [h8]
  constructor
  · intro h
    have h2 : (4 * max_tokens : ℚ) < 5 * t := by linarith
    exact_mod_cast h2
  · intro h
    have h2 : (4 * max_tokens : ℚ) < 5 * t := by exact_mod_cast h
    show (max_tokens : ℚ) * (4 / 5) < t
    linarith

/-- The two tests with the 80% threshold in integers. -/
theorem heuristic_stop_eq (config : model_config_t) (model_path : List Char)
    (response_len tokens_generated : Int) (token_text : List Char) :
    heuristic_stop config model_path response_len tokens_generated token_text =
      if response_len > 50 then
        if at_sentence_boundary token_text ∧ tokens_generated > min_tokens model_path then
          some StopReason.sentence_boundary
        else if 5 * tokens_generated > 4 * config.max_tokens ∧ looks_repetitive token_text then
          some StopReason.repetition
        else none
      else none := by
  unfold heuristic_stop
  simp only [drift_iff]

/-- A round whose token is appended and decoded ends as the two heuristic
tests decide. -/
theorem loop_round_heuristic (rt : Runtime) (config : model_config_t)
    (model_path : List Char) (st : GenState) (piece : List Char)
    (heog : (rt.steps st.tokens_generated.toNat).is_eog = false)
    (hpiece : (rt.steps st.tokens_generated.toNat).piece = some piece)
    (hend : has_end_token (c_string piece) = false)
    (hfit : st.response_len + (piece.length : Int) < 8190)
    (hdec : (rt.steps st.tokens_generated.toNat).decode = 0) :
    loop_round rt config model_path st =
      ({ response := st.response ++ c_string piece,
         response_len := st.response_len + (piece.length : Int),
         tokens_generated := st.tokens_generated + 1,
         trace := st.trace ++ [Event.llama_sampler_sample] ++
           [Event.llama_sampler_accept, Event.llama_token_to_piece] ++
           [Event.llama_decode 1] },
        heuristic_stop config model_path (st.response_len + (piece.length : Int))
          (st.tokens_generated + 1) (c_string piece)) := by
  rcases loop_round_cases rt config model_path st with
    ⟨he, _⟩ | ⟨_, hp, _⟩ | ⟨t, _, hp, ht, _⟩ | ⟨t, _, hp, _, hnf, _⟩ |
    ⟨t, _, hp, _, _, hd, _⟩ | ⟨t, _, hp, _, _, _, h⟩
  · rw [heog] at he; exact absurd he (by decide)
  · rw [hpiece] at hp; exact absurd hp (by simp)
  · rw [hpiece] at hp
    cases hp
    rw [hend] at ht; exact absurd ht (by decide)
  · rw [hpiece] at hp
    cases hp
    exact absurd hfit hnf
  · exact absurd hdec hd
  · rw [hpiece] at hp
    cases hp
    exact h

/-! ## C14 -/

/-- C14, evaluated at a token text with `? ` (and one with `!\n`): the test of
lines 219-221 accepts the seven patterns it lists and rejects these two.  In a
run whose first 21 token texts are `ab` and whose 22nd is `Is it so? `, the
22nd round starts with 42 bytes and 21 tokens, so after it the response has 52
bytes, more than 50, and 22 tokens, more than the minimum of 20, and the round
goes on without a `break`. -/
theorem question_mark_space_goes_on :
    at_sentence_boundary ". ".toList = true ∧ at_sentence_boundary ".\n".toList = true ∧
    at_sentence_boundary "! ".toList = true ∧ at_sentence_boundary "?\n".toList = true ∧
    at_sentence_boundary ".\"".toList = true ∧ at_sentence_boundary "!\"".toList = true ∧
    at_sentence_boundary "?\"".toList = true ∧
    at_sentence_boundary "? ".toList = false ∧ at_sentence_boundary "!\n".toList = false ∧
    (generation_loop questionRuntime (get_model_config "model.gguf".toList)
      "model.gguf".toList 21 (loop_start 5)).response_len = 42 ∧
    (generation_loop questionRuntime (get_model_config "model.gguf".toList)
      "model.gguf".toList 21 (loop_start 5)).tokens_generated = 21 ∧
    (questionRuntime.steps 21).piece = some "Is it so? ".toList ∧
    min_tokens "model.gguf".toList = 20 ∧
    (loop_round questionRuntime (get_model_config "model.gguf".toList) "model.gguf".toList
      (generation_loop questionRuntime (get_model_config "model.gguf".toList)
        "model.gguf".toList 21 (loop_start 5))).2 = none ∧
    heuristic_stop (get_model_config "model.gguf".toList) "model.gguf".toList 52 22
      "Is it so. ".toList = some StopReason.sentence_boundary := by
  have hlen : (generation_loop questionRuntime (get_model_config "model.gguf".toList)
      "model.gguf".toList 21 (loop_start 5)).response_len = 42 := by decide
  have htg : (generation_loop questionRuntime (get_model_config "model.gguf".toList)
      "model.gguf".toList 21 (loop_start 5)).tokens_generated = 21 := by decide
  refine ⟨by decide, by decide, by decide, by decide, by decide, by decide, by decide,
    by decide, by decide, hlen, htg, by decide, by decide, ?_, ?_⟩
  · rw [loop_round_heuristic questionRuntime _ _ _ "Is it so? ".toList
      (by rw [htg]; decide) (by rw [htg]; decide) (by decide) (by rw [hlen]; decide)
      (by rw [htg]; decide)]
    dsimp only
    rw [hlen, htg, heuristic_stop_eq]
    decide
  · rw [heuristic_stop_eq]
    decide

/-! ## C15 -/

theorem min_tokens_eq (model_path : List Char) :
    min_tokens model_path = if "phi-3".toList <:+: model_path then 30 else 20 := by
  unfold min_tokens
  simp only [strstr_isSome_iff]

/-- C15, evaluated at the path `Phi-3-mini.gguf`: it holds the marker `Phi-3`
and `get_model_config` gives it the compact profile, yet `min_tokens` is 20 for
it, the value of paths outside the family; the path `phi-3-mini.gguf` gets 30. -/
theorem capitalised_marker_min_tokens :
    "Phi-3".toList <:+: "Phi-3-mini.gguf".toList ∧
    get_model_config "Phi-3-mini.gguf".toList = ⟨256, 32, 0.1, 3, 0.2, 30⟩ ∧
    min_tokens "Phi-3-mini.gguf".toList = 20 ∧
    min_tokens "phi-3-mini.gguf".toList = 30 :=
  ⟨by decide, rfl, by decide, by decide⟩

/-! ## C16 -/

theorem heuristic_stop_sentence_iff (config : model_config_t) (model_path : List Char)
    (response_len tokens_generated : Int) (token_text : List Char) :
    heuristic_stop config model_path response_len tokens_generated token_text =
        some StopReason.sentence_boundary ↔
      response_len > 50 ∧ at_sentence_boundary token_text = true ∧
      tokens_generated > min_tokens model_path := by
  rw [heuristic_stop_eq]
  split_ifs with h1 h2 h3
  · exact ⟨fun _ => ⟨h1, h2.1, h2.2⟩, fun _ => rfl⟩
  · constructor
    · intro h; exact absurd h (by decide)
    · rintro ⟨-, ha, hb⟩
      exact absurd ⟨ha, hb⟩ h2
  · constructor
    · intro h; exact absurd h (by decide)
    · rintro ⟨-, ha, hb⟩
      exact absurd ⟨ha, hb⟩ h2
  · constructor
    · intro h; exact absurd h (by decide)
    · rintro ⟨ha, -⟩
      exact absurd ha h1

set_option maxRecDepth 100000 in
theorem longRuntime_piece_plain :
    has_end_token (c_string (List.replicate 127 'a')) = false ∧
    at_sentence_boundary (c_string (List.replicate 127 'a')) = false ∧
    looks_repetitive (c_string (List.replicate 127 'a')) = false := by
  decide

/-- With 127-byte token texts and a budget of 100 tokens, each round the
buffer has room for adds 127 to `response_len`. -/
theorem longRuntime_loop (model_path : List Char) :
    ∀ (fuel : Nat) (st : GenState), st.tokens_generated + fuel ≤ 100 →
      st.response_len + 127 * fuel < 8190 →
      (generation_loop longRuntime wideConfig model_path fuel st).response_len =
        st.response_len + 127 * fuel := by
  intro fuel
  induction fuel with
  | zero => intro st _ _; simp [generation_loop_zero]
  | succ n ih =>
    intro st htg hlen
    have hg : st.tokens_generated < wideConfig.max_tokens := by
      show st.tokens_generated < 100
      omega
    have hl : ((List.replicate 127 'a').length : Int) = 127 := by
      rw [List.length_replicate]; rfl
    have hround := loop_round_heuristic longRuntime wideConfig model_path st
      (List.replicate 127 'a') rfl rfl longRuntime_piece_plain.1
      (by rw [hl]; push_cast at hlen; omega) rfl
    have hnone : heuristic_stop wideConfig model_path
        (st.response_len + ((List.replicate 127 'a').length : Int))
        (st.tokens_generated + 1) (c_string (List.replicate 127 'a')) = none := by
      rw [heuristic_stop_eq, longRuntime_piece_plain.2.1, longRuntime_piece_plain.2.2]
      simp
    rw [hnone] at hround
    rw [generation_loop_succ, if_pos hg, hround]
    simp only []
    rw [ih _ (by simp only []; push_cast at htg ⊢; omega)
      (by simp only []; rw [hl]; push_cast at hlen ⊢; omega)]
    simp only []
    rw [hl]
    push_cast
    ring

/-- C12, witness: with token texts of 127 letters `a` and a budget of 100
tokens, the loop has appended 64 of them, 8128 bytes; the 65th would bring
`response_len` to 8255, and the round leaves the loop through line 202 with
`response` and `response_len` unchanged. -/
theorem response_buffer_safe_witness :
    (generation_loop longRuntime wideConfig "model.gguf".toList 64 (loop_start 5)).response_len
      = 8128 ∧
    (loop_round longRuntime wideConfig "model.gguf".toList
      (generation_loop longRuntime wideConfig "model.gguf".toList 64 (loop_start 5))).2 =
        some StopReason.buffer_full ∧
    (loop_round longRuntime wideConfig "model.gguf".toList
      (generation_loop longRuntime wideConfig "model.gguf".toList 64 (loop_start 5))).1.response =
      (generation_loop longRuntime wideConfig "model.gguf".toList 64 (loop_start 5)).response ∧
    (loop_round longRuntime wideConfig "model.gguf".toList
      (generation_loop longRuntime wideConfig "model.gguf".toList 64
        (loop_start 5))).1.response_len = 8128 := by
  have h : (generation_loop longRuntime wideConfig "model.gguf".toList 64
      (loop_start 5)).response_len = 8128 :=
    longRuntime_loop "model.gguf".toList 64 (loop_start 5) (by decide) (by decide)
  have h2 := (response_buffer_safe longRuntime wideConfig "model.gguf".toList).2
    (generation_loop longRuntime wideConfig "model.gguf".toList 64 (loop_start 5))
    (List.replicate 127 'a') rfl rfl longRuntime_piece_plain.1
    (by rw [h, List.length_replicate]; decide)
  exact ⟨h, h2.1, h2.2.1, h2.2.2.trans h⟩

/-! ## Token texts of at most 127 bytes -/

theorem loop_round_lengths (rt : Runtime) (config : model_config_t) (model_path : List Char)
    (st : GenState)
    (hpieces : ∀ i token_text, (rt.steps i).piece = some token_text → token_text.length ≤ 127) :
    (loop_round rt config model_path st).1.response_len ≤ st.response_len + 127 ∧
    ((loop_round rt config model_path st).2 = some StopReason.buffer_full →
      8190 ≤ st.response_len + 127) := by
  rcases loop_round_cases rt config model_path st with
    ⟨_, h⟩ | ⟨_, _, h⟩ | ⟨t, _, _, _, h⟩ | ⟨t, _, hp, _, hnf, h⟩ | ⟨t, _, hp, _, _, _, h⟩ |
    ⟨t, _, hp, _, _, _, h⟩
  · rw [h]; exact ⟨by simp, fun hr => absurd hr (by simp)⟩
  · rw [h]; exact ⟨by simp, fun hr => absurd hr (by simp)⟩
  · rw [h]; exact ⟨by simp, fun hr => absurd hr (by simp)⟩
  · rw [h]
    have := hpieces _ _ hp
    refine ⟨by simp, fun _ => ?_⟩
    omega
  · rw [h]
    have := hpieces _ _ hp
    refine ⟨?_, fun hr => absurd hr (by simp)⟩
    simp only []
    omega
  · rw [h]
    have := hpieces _ _ hp
    constructor
    · simp only []
      omega
    · intro hr
      simp only [] at hr
      rw [heuristic_stop_eq] at hr
      split_ifs at hr <;> simp at hr

theorem max_tokens_le (model_path : List Char) :
    (get_model_config model_path).max_tokens ≤ 50 := by
  rcases get_model_config_cases model_path with h | h <;> rw [h] <;> decide

/-- With token texts of at most 127 bytes, `response_len ≤ 127 * tokens_generated`
holds at the head of every round. -/
theorem loop_round_growth (rt : Runtime) (config : model_config_t) (model_path : List Char)
    (st : GenState)
    (hpieces : ∀ i token_text, (rt.steps i).piece = some token_text → token_text.length ≤ 127)
    (hinv : st.response_len ≤ 127 * st.tokens_generated)
    (hr : (loop_round rt config model_path st).2 = none) :
    (loop_round rt config model_path st).1.response_len ≤
      127 * (loop_round rt config model_path st).1.tokens_generated := by
  have hl := (loop_round_lengths rt config model_path st hpieces).1
  have ht := (loop_round_tokens rt config model_path st).2.2 hr
  rw [ht]
  omega

theorem loop_exit_ne_buffer_full (rt : Runtime) (config : model_config_t)
    (model_path : List Char) (hmax : config.max_tokens ≤ 50)
    (hpieces : ∀ i token_text, (rt.steps i).piece = some token_text → token_text.length ≤ 127)
    (fuel : Nat) (st : GenState) (hinv : st.response_len ≤ 127 * st.tokens_generated) :
    loop_exit rt config model_path fuel st ≠ LoopExit.stopped StopReason.buffer_full := by
  apply loop_exit_induct rt config model_path
    (fun s => s.response_len ≤ 127 * s.tokens_generated)
    (fun e => e ≠ LoopExit.stopped StopReason.buffer_full)
  · intro s hP _ hr
    exact loop_round_growth rt config model_path s hpieces hP hr
  · intro s r hP hg hr hfull
    have hr2 : r = StopReason.buffer_full := by
      injection hfull
    subst hr2
    have := (loop_round_lengths rt config model_path s hpieces).2 hr
    omega
  · simp
  · simp
  · exact hinv

theorem loop_round_length_le (rt : Runtime) (config : model_config_t)
    (model_path : List Char) (st : GenState)
    (hlen : (st.response.length : Int) ≤ st.response_len) :
    ((loop_round rt config model_path st).1.response.length : Int) ≤
      (loop_round rt config model_path st).1.response_len := by
  rcases loop_round_cases rt config model_path st with
    ⟨_, h⟩ | ⟨_, _, h⟩ | ⟨t, _, _, _, h⟩ | ⟨t, _, _, _, _, h⟩ | ⟨t, _, _, _, _, _, h⟩ |
    ⟨t, _, _, _, _, _, h⟩
  · rw [h]; exact hlen
  · rw [h]; exact hlen
  · rw [h]; exact hlen
  · rw [h]; exact hlen
  · rw [h]
    have hc := length_c_string_le t
    simp only [List.length_append, Nat.cast_add]
    omega
  · rw [h]
    have hc := length_c_string_le t
    simp only [List.length_append, Nat.cast_add]
    omega

theorem generation_loop_length (rt : Runtime) (config : model_config_t)
    (model_path : List Char)
    (hpieces : ∀ i token_text, (rt.steps i).piece = some token_text → token_text.length ≤ 127)
    (fuel : Nat) (st : GenState) (hlen : (st.response.length : Int) ≤ st.response_len)
    (hinv : st.response_len ≤ 127 * st.tokens_generated)
    (hle : st.tokens_generated ≤ config.max_tokens) :
    ((generation_loop rt config model_path fuel st).response.length : Int) ≤
      127 * config.max_tokens := by
  apply generation_loop_induct rt config model_path
    (fun s => (s.response.length : Int) ≤ s.response_len ∧
      s.response_len ≤ 127 * s.tokens_generated ∧ s.tokens_generated ≤ config.max_tokens)
    (fun s => (s.response.length : Int) ≤ 127 * config.max_tokens)
  · intro s hP hg hr
    have ht := (loop_round_tokens rt config model_path s).2.2 hr
    refine ⟨loop_round_length_le rt config model_path s hP.1,
      loop_round_growth rt config model_path s hpieces hP.2.1 hr, ?_⟩
    rw [ht]; omega
  · intro s r hP hg _
    have hl := (loop_round_lengths rt config model_path s hpieces).1
    have hb := loop_round_length_le rt config model_path s hP.1
    omega
  · intro s hP
    omega
  · exact ⟨hlen, hinv, hle⟩

/-! ## The cleaning stage never lengthens the text before the period -/

theorem length_excise_le (tok : List Char) :
    ∀ (fuel : Nat) (s : List Char), (excise tok fuel s).length ≤ s.length := by
  intro fuel
  induction fuel with
  | zero => intro s; exact le_refl _
  | succ n ih =>
    intro s
    unfold excise
    cases hk : strstr s tok with
    | none => exact le_refl _
    | some k =>
      simp only []
      have h1 := ih (s.take k ++ s.drop (k + tok.length))
      have h2 := length_excise_step tok s k hk
      omega

theorem length_remove_special_tokens_le (s : List Char) :
    (remove_special_tokens s).length ≤ s.length := by
  unfold remove_special_tokens
  have key : ∀ (toks : List (List Char)) (r : List Char),
      (toks.foldl (fun r tok => excise tok r.length r) r).length ≤ r.length := by
    intro toks
    induction toks with
    | nil => intro r; exact le_refl _
    | cons t ts ih =>
      intro r
      rw [List.foldl_cons]
      exact le_trans (ih _) (length_excise_le t _ r)
  exact key special_tokens s

theorem length_trim_le (s : List Char) : (trim s).length ≤ s.length := by
  unfold trim
  have hd := (List.dropWhile_suffix (l := s) is_trim_char).length_le
  cases hs : s.dropWhile is_trim_char with
  | nil => simp
  | cons c rest =>
    rw [hs] at hd
    have hr := (List.rdropWhile_prefix is_trim_char rest).length_le
    simp only [List.length_cons] at hd ⊢
    omega

theorem length_cleaned_le (raw : List Char) : (cleaned raw).length ≤ raw.length := by
  unfold cleaned
  have h1 := (collapse_spaces_sublist (trim (remove_special_tokens raw)) 0).length_le
  have h2 := length_trim_le (remove_special_tokens raw)
  have h3 := length_remove_special_tokens_le raw
  omega

/-! ## C17 -/

theorem get_model_config_of_phi3 (model_path : List Char)
    (hphi : "phi-3".toList <:+: model_path) :
    get_model_config model_path = compactProfile := by
  have h : (strstr model_path "phi-3".toList).isSome = true :=
    (strstr_isSome_iff _ _).mpr hphi
  unfold get_model_config compactProfile
  simp only [h, Bool.true_or, if_true]

theorem loop_round_sentence (rt : Runtime) (config : model_config_t) (model_path : List Char)
    (st : GenState)
    (h : (loop_round rt config model_path st).2 = some StopReason.sentence_boundary) :
    st.tokens_generated + 1 > min_tokens model_path := by
  rcases loop_round_cases rt config model_path st with
    ⟨_, e⟩ | ⟨_, _, e⟩ | ⟨t, _, _, _, e⟩ | ⟨t, _, _, _, _, e⟩ | ⟨t, _, _, _, _, _, e⟩ |
    ⟨t, _, _, _, _, _, e⟩
  all_goals rw [e] at h
  · exact absurd h (by simp)
  · exact absurd h (by simp)
  · exact absurd h (by simp)
  · exact absurd h (by simp)
  · exact absurd h (by simp)
  · exact ((heuristic_stop_sentence_iff _ _ _ _ _).mp h).2.2

theorem nestedMarkerRuntime_pieces :
    ∀ i token_text, (nestedMarkerRuntime.steps i).piece = some token_text →
      token_text.length ≤ 127 := by
  intro i token_text h
  unfold nestedMarkerRuntime at h
  simp only [] at h
  split_ifs at h
  · simp only [Option.some.injEq] at h
    rw [← h]; decide
  · simp only [Option.some.injEq] at h
    rw [← h]; decide

/-- C17: for a path that contains `phi-3` both `max_tokens` and `min_tokens`
are 30, so in no round the loop runs (each starts with
`tokens_generated < max_tokens`) is the `break` of line 223 taken, and no run
of the loop ends by it; with token texts of at most 127 bytes a run from the
start of the loop ends by the end-of-generation token, a marker, a failed
`llama_token_to_piece` or `llama_decode`, the `break` of line 229, or the loop
condition. -/
theorem sentence_stop_unreachable (rt : Runtime) (model_path : List Char)
    (hphi : "phi-3".toList <:+: model_path) :
    (get_model_config model_path).max_tokens = 30 ∧ min_tokens model_path = 30 ∧
    (∀ st : GenState, st.tokens_generated < (get_model_config model_path).max_tokens →
      (loop_round rt (get_model_config model_path) model_path st).2 ≠
        some StopReason.sentence_boundary) ∧
    (∀ (fuel : Nat) (st : GenState),
      loop_exit rt (get_model_config model_path) model_path fuel st ≠
        LoopExit.stopped StopReason.sentence_boundary) ∧
    ((∀ i token_text, (rt.steps i).piece = some token_text → token_text.length ≤ 127) →
      ∀ n_tokens : Int,
        loop_exit rt (get_model_config model_path) model_path
          (get_model_config model_path).max_tokens.toNat (loop_start n_tokens) ∈
        [LoopExit.stopped StopReason.end_of_generation, LoopExit.stopped StopReason.end_token,
         LoopExit.stopped StopReason.piece_failed, LoopExit.stopped StopReason.decode_failed,
         LoopExit.stopped StopReason.repetition, LoopExit.budget_exhausted]) := by
  have hcfg := get_model_config_of_phi3 model_path hphi
  have hmax : (get_model_config model_path).max_tokens = 30 := by rw [hcfg]; rfl
  have hmin : min_tokens model_path = 30 := by rw [min_tokens_eq, if_pos hphi]
  have hround : ∀ st : GenState, st.tokens_generated < (get_model_config model_path).max_tokens →
      (loop_round rt (get_model_config model_path) model_path st).2 ≠
        some StopReason.sentence_boundary := by
    intro st hg hs
    have := loop_round_sentence rt _ model_path st hs
    rw [hmin] at this
    rw [hmax] at hg
    omega
  have hexit : ∀ (fuel : Nat) (st : GenState),
      loop_exit rt (get_model_config model_path) model_path fuel st ≠
        LoopExit.stopped StopReason.sentence_boundary := by
    intro fuel st
    apply loop_exit_induct rt (get_model_config model_path) model_path
      (fun _ => True) (fun e => e ≠ LoopExit.stopped StopReason.sentence_boundary)
    · intro _ _ _ _; trivial
    · intro s r _ hg hr he
      have hr2 : r = StopReason.sentence_boundary := by injection he
      subst hr2
      exact hround s hg hr
    · simp
    · simp
    · trivial
  refine ⟨hmax, hmin, hround, hexit, ?_⟩
  intro hpieces n_tokens
  have h1 := hexit (get_model_config model_path).max_tokens.toNat (loop_start n_tokens)
  have h2 := loop_exit_ne_buffer_full rt (get_model_config model_path) model_path
    (max_tokens_le model_path) hpieces (get_model_config model_path).max_tokens.toNat
    (loop_start n_tokens) (show (0 : Int) ≤ 127 * 0 by decide)
  have h3 := loop_exit_ne_out_of_fuel rt (get_model_config model_path) model_path
    (get_model_config model_path).max_tokens.toNat (loop_start n_tokens)
    (by show ((get_model_config model_path).max_tokens - 0).toNat ≤ _; simp)
  revert h1 h2 h3
  generalize loop_exit rt (get_model_config model_path) model_path
    (get_model_config model_path).max_tokens.toNat (loop_start n_tokens) = e
  intro h1 h2 h3
  cases e with
  | stopped r => cases r <;> simp at h1 h2 ⊢
  | budget_exhausted => simp
  | out_of_fuel => exact absurd rfl h3

/-- C17, witness: the path `phi-3.gguf` and a runtime whose token texts have
8 and 9 bytes. -/
theorem sentence_stop_unreachable_witness :
    "phi-3".toList <:+: "phi-3.gguf".toList ∧
    loop_exit nestedMarkerRuntime (get_model_config "phi-3.gguf".toList) "phi-3.gguf".toList
        (get_model_config "phi-3.gguf".toList).max_tokens.toNat (loop_start 0) ∈
      [LoopExit.stopped StopReason.end_of_generation, LoopExit.stopped StopReason.end_token,
       LoopExit.stopped StopReason.piece_failed, LoopExit.stopped StopReason.decode_failed,
       LoopExit.stopped StopReason.repetition, LoopExit.budget_exhausted] :=
  ⟨by decide,
   (sentence_stop_unreachable nestedMarkerRuntime "phi-3.gguf".toList (by decide)).2.2.2.2
     nestedMarkerRuntime_pieces 0⟩

/-! ## C19 -/

/-- C19: when every token text has at most 127 bytes, the text the loop of
`run_llama` builds has at most `127 * max_tokens ≤ 6350` bytes, the `break` of
line 202 (`response_len + token_len ≥ 8190`) is not what ends the loop, and
the cleaned text is shorter than 8180 bytes, the guard of line 300. -/
theorem generated_text_bounded (rt : Runtime) (model_path prompt : List Char)
    (hpieces : ∀ i token_text, (rt.steps i).piece = some token_text → token_text.length ≤ 127) :
    ((generated rt model_path prompt).response.length : Int) ≤
      127 * (get_model_config model_path).max_tokens ∧
    127 * (get_model_config model_path).max_tokens ≤ 6350 ∧
    loop_exit rt (get_model_config model_path) model_path
        (get_model_config model_path).max_tokens.toNat
        (loop_start (prompt_tokens rt model_path prompt)) ≠
      LoopExit.stopped StopReason.buffer_full ∧
    (cleaned (generated rt model_path prompt).response).length < 8180 := by
  have hmax := max_tokens_le model_path
  have hlen := generation_loop_length rt (get_model_config model_path) model_path hpieces
    (get_model_config model_path).max_tokens.toNat
    (loop_start (prompt_tokens rt model_path prompt))
    (show ((0 : Nat) : Int) ≤ 0 by decide)
    (show (0 : Int) ≤ 127 * 0 by decide) (max_tokens_nonneg model_path)
  have hfull := loop_exit_ne_buffer_full rt (get_model_config model_path) model_path
    hmax hpieces (get_model_config model_path).max_tokens.toNat
    (loop_start (prompt_tokens rt model_path prompt)) (show (0 : Int) ≤ 127 * 0 by decide)
  have hc := length_cleaned_le (generated rt model_path prompt).response
  refine ⟨hlen, by omega, hfull, ?_⟩
  have hlen2 : ((generated rt model_path prompt).response.length : Int) ≤
      127 * (get_model_config model_path).max_tokens := hlen
  omega

/-- C19, witness: a runtime whose token texts have 8 and 9 bytes. -/
theorem generated_text_bounded_witness :
    (cleaned (generated nestedMarkerRuntime "phi-3.gguf".toList "hi".toList).response).length
      < 8180 :=
  (generated_text_bounded nestedMarkerRuntime "phi-3.gguf".toList "hi".toList
    nestedMarkerRuntime_pieces).2.2.2

/-! ## C18 -/

/-- Where the period is appended, it fits the buffer `cleaned` exactly when
collapsing removed at least one space. -/
theorem period_fits_iff (raw : List Char)
    (hperiod : ensure_sentence_ending (cleaned raw) = cleaned raw ++ ['.']) :
    cleaned_needed raw ≤ cleaned_capacity raw ↔
      (cleaned raw).length < (trim (remove_special_tokens raw)).length := by
  unfold cleaned_needed cleaned_capacity
  rw [hperiod, List.length_append, List.length_singleton]
  omega

/-- C18, evaluated at the raw text `This is a longer test sentence`: nothing
is trimmed or collapsed, so the buffer `cleaned` has 30 + 1 bytes, while the
final text `This is a longer test sentence.` and its terminator need 32. -/
theorem period_overflows_cleaned :
    trim (remove_special_tokens "This is a longer test sentence".toList) =
      "This is a longer test sentence".toList ∧
    cleaned_capacity "This is a longer test sentence".toList = 31 ∧
    sanitize "This is a longer test sentence".toList =
      "This is a longer test sentence.".toList ∧
    cleaned_needed "This is a longer test sentence".toList = 32 ∧
    ¬ ((sanitize "This is a longer test sentence".toList).length + 1 ≤
        (trim (remove_special_tokens "This is a longer test sentence".toList)).length + 1) := by
  decide

/-! ## C20 -/

theorem generation_loop_fed (rt : Runtime) (config : model_config_t)
    (model_path : List Char) (fuel : Nat) (st : GenState)
    (hle : st.tokens_generated ≤ config.max_tokens) :
    tokens_fed (generation_loop rt config model_path fuel st).trace ≤
      tokens_fed st.trace + (config.max_tokens - st.tokens_generated) := by
  apply generation_loop_induct rt config model_path
    (fun s => s.tokens_generated ≤ config.max_tokens ∧
      tokens_fed s.trace + (config.max_tokens - s.tokens_generated) ≤
        tokens_fed st.trace + (config.max_tokens - st.tokens_generated))
    (fun s => tokens_fed s.trace ≤
      tokens_fed st.trace + (config.max_tokens - st.tokens_generated))
  · intro s hP hg hr
    have ht := (loop_round_tokens rt config model_path s).2.2 hr
    have hn := loop_round_fed rt config model_path s
    rw [ht]
    constructor <;> omega
  · intro s r hP hg _
    have hn := loop_round_fed rt config model_path s
    omega
  · intro s hP
    omega
  · constructor <;> omega

theorem tokens_fed_prompt_trace (n : Int) : tokens_fed (prompt_trace n) = n := by
  simp [tokens_fed, prompt_trace]

/-- C20: in a run that passes the checks before the prompt is decoded, the
tokens handed to `llama_decode` over the whole run, the prompt tokens and one
per round of the loop, number at most `context_size`, as do the prompt tokens
plus `tokens_generated`; and for every path `max_tokens < context_size` and
`context_size - max_tokens - 50 > 0`. -/
theorem context_not_exceeded (rt : Runtime) (model_path prompt : List Char)
    (h : ChecksPass rt model_path prompt) :
    tokens_fed (run_llama rt model_path prompt).trace ≤
      (get_model_config model_path).context_size ∧
    prompt_tokens rt model_path prompt + (generated rt model_path prompt).tokens_generated ≤
      (get_model_config model_path).context_size ∧
    (generated rt model_path prompt).tokens_generated ≤
      (get_model_config model_path).max_tokens ∧
    (get_model_config model_path).max_tokens < (get_model_config model_path).context_size ∧
    0 < max_prompt_tokens model_path := by
  have hn0 := h.count_nonneg
  have hn1 := h.count_fits
  rw [near_full_iff] at hn1
  have hle0 : (loop_start (prompt_tokens rt model_path prompt)).tokens_generated ≤
      (get_model_config model_path).max_tokens := max_tokens_nonneg model_path
  have hfed := generation_loop_fed rt (get_model_config model_path) model_path
    (get_model_config model_path).max_tokens.toNat
    (loop_start (prompt_tokens rt model_path prompt)) hle0
  have htg := (generation_loop_rounds rt (get_model_config model_path) model_path
    (get_model_config model_path).max_tokens.toNat
    (loop_start (prompt_tokens rt model_path prompt)) hle0).1
  have hstart : tokens_fed (loop_start (prompt_tokens rt model_path prompt)).trace =
      prompt_tokens rt model_path prompt := tokens_fed_prompt_trace _
  have hzero : (loop_start (prompt_tokens rt model_path prompt)).tokens_generated = 0 := rfl
  rw [hstart, hzero] at hfed
  have hgen : generation_loop rt (get_model_config model_path) model_path
      (get_model_config model_path).max_tokens.toNat
      (loop_start (prompt_tokens rt model_path prompt)) = generated rt model_path prompt := rfl
  rw [hgen] at hfed htg
  have hnum : (get_model_config model_path).context_size = 256 ∧
      ((get_model_config model_path).max_tokens = 30 ∧ max_prompt_tokens model_path = 176 ∨
       (get_model_config model_path).max_tokens = 50 ∧ max_prompt_tokens model_path = 156) := by
    unfold max_prompt_tokens
    rcases get_model_config_cases model_path with e | e <;> rw [e]
    · exact ⟨rfl, Or.inl ⟨rfl, rfl⟩⟩
    · exact ⟨rfl, Or.inr ⟨rfl, rfl⟩⟩
  obtain ⟨hctx, hcases⟩ := hnum
  have hrun := run_llama_of_checks rt model_path prompt h
  have hfedrun : tokens_fed (run_llama rt model_path prompt).trace ≤
      prompt_tokens rt model_path prompt + (get_model_config model_path).max_tokens := by
    rw [hrun]
    split_ifs
    · have hm := max_tokens_nonneg model_path
      simp only [tokens_fed]
      omega
    · simp only [tokens_fed_append]
      have : tokens_fed [Event.llama_sampler_free, Event.free_tokens, Event.llama_free,
          Event.llama_model_free, Event.llama_backend_free] = 0 := rfl
      rw [this]
      omega
  rcases hcases with ⟨hm, hcap⟩ | ⟨hm, hcap⟩
  · rw [hcap] at hn1 ⊢
    rw [hm] at hfedrun htg ⊢
    rw [hctx]
    refine ⟨by omega, by omega, htg, by omega, by omega⟩
  · rw [hcap] at hn1 ⊢
    rw [hm] at hfedrun htg ⊢
    rw [hctx]
    refine ⟨by omega, by omega, htg, by omega, by omega⟩

/-- C20, witness: a prompt of 158 tokens, the most the compact profile lets
through. -/
theorem context_not_exceeded_witness :
    ChecksPass (tokenRuntime 158) "phi-3.gguf".toList "hi".toList ∧
    tokens_fed (run_llama (tokenRuntime 158) "phi-3.gguf".toList "hi".toList).trace ≤
      (get_model_config "phi-3.gguf".toList).context_size :=
  ⟨tokenRuntime_checks 158 (by decide) (by decide),
   (context_not_exceeded (tokenRuntime 158) "phi-3.gguf".toList "hi".toList
     (tokenRuntime_checks 158 (by decide) (by decide))).1⟩

/-! ## C5 -/

theorem sentenceRuntime_pieces :
    ∀ i token_text, (sentenceRuntime.steps i).piece = some token_text →
      token_text.length ≤ 127 := by
  intro i token_text h
  unfold sentenceRuntime at h
  simp only [] at h
  split_ifs at h
  simp only [Option.some.injEq] at h
  rw [← h]; decide

/-- C5: for the raw text the loop of `run_llama` builds, token texts having at
most 127 bytes as line 184 provides: the text has fewer than 8190 bytes, and
when its cleaned form has at least 3 bytes the cleaning stage returns the
cleaned form with one `.` appended exactly when the cleaned form is longer
than 20 bytes, its last byte is none of `.`, `!`, `?`, `"`, newline, it does
not end in `...` and it holds no `:`; in every other case it returns the
cleaned form unchanged.  The guard `strlen(response) < 8180` of line 300 never
decides: the cleaned form is always shorter than 8180 bytes.  Where the period
is appended, the text and its terminator lie within the buffer `cleaned`
exactly when collapsing removed at least one space. -/
theorem generated_period_rule (rt : Runtime) (model_path prompt : List Char)
    (hpieces : ∀ i token_text, (rt.steps i).piece = some token_text → token_text.length ≤ 127)
    (hlen : 3 ≤ (cleaned (generated rt model_path prompt).response).length) :
    (generated rt model_path prompt).response.length < 8190 ∧
    (cleaned (generated rt model_path prompt).response).length < 8180 ∧
    sanitize (generated rt model_path prompt).response =
      (if 20 < (cleaned (generated rt model_path prompt).response).length ∧
          (∀ c ∈ ['.', '!', '?', '"', '\n'],
            (cleaned (generated rt model_path prompt).response).getLast? ≠ some c) ∧
          ¬ "...".toList <:+ cleaned (generated rt model_path prompt).response ∧
          ':' ∉ cleaned (generated rt model_path prompt).response
      then cleaned (generated rt model_path prompt).response ++ ['.']
      else cleaned (generated rt model_path prompt).response) ∧
    (sanitize (generated rt model_path prompt).response =
        cleaned (generated rt model_path prompt).response ++ ['.'] →
      (cleaned_needed (generated rt model_path prompt).response ≤
          cleaned_capacity (generated rt model_path prompt).response ↔
        (cleaned (generated rt model_path prompt).response).length <
          (trim (remove_special_tokens (generated rt model_path prompt).response)).length)) := by
  have hmax := max_tokens_le model_path
  have hraw : ((generated rt model_path prompt).response.length : Int) ≤
      127 * (get_model_config model_path).max_tokens :=
    generation_loop_length rt (get_model_config model_path) model_path hpieces
      (get_model_config model_path).max_tokens.toNat
      (loop_start (prompt_tokens rt model_path prompt))
      (show ((0 : Nat) : Int) ≤ 0 by decide)
      (show (0 : Int) ≤ 127 * 0 by decide) (max_tokens_nonneg model_path)
  have hc := length_cleaned_le (generated rt model_path prompt).response
  have h8180 : (cleaned (generated rt model_path prompt).response).length < 8180 := by omega
  refine ⟨by omega, h8180, ?_, ?_⟩
  · rw [sanitize_period_rule _ hlen]
    by_cases hcond : 20 < (cleaned (generated rt model_path prompt).response).length ∧
        (∀ c ∈ ['.', '!', '?', '"', '\n'],
          (cleaned (generated rt model_path prompt).response).getLast? ≠ some c) ∧
        ¬ "...".toList <:+ cleaned (generated rt model_path prompt).response ∧
        ':' ∉ cleaned (generated rt model_path prompt).response
    · rw [if_pos hcond, if_pos ⟨hcond.1, h8180, hcond.2⟩]
    · rw [if_neg hcond, if_neg (fun h => hcond ⟨h.1, h.2.2⟩)]
  · intro hs
    rw [sanitize_of_long _ hlen] at hs
    exact period_fits_iff _ hs

/-- C5, witness: a run whose one token text is
`  This   is a  longer test sentence ` and a newline; the cleaned form
`This is a longer test sentence` meets the conditions and gets a period. -/
theorem generated_period_rule_witness :
    3 ≤ (cleaned (generated sentenceRuntime "model.gguf".toList "hi".toList).response).length ∧
    (generated sentenceRuntime "model.gguf".toList "hi".toList).response =
      "  This   is a  longer test sentence \n".toList ∧
    cleaned (generated sentenceRuntime "model.gguf".toList "hi".toList).response =
      "This is a longer test sentence".toList ∧
    sanitize (generated sentenceRuntime "model.gguf".toList "hi".toList).response =
      "This is a longer test sentence.".toList ∧
    sanitize (generated sentenceRuntime "model.gguf".toList "hi".toList).response =
      (if 20 < (cleaned (generated sentenceRuntime "model.gguf".toList
            "hi".toList).response).length ∧
          (∀ c ∈ ['.', '!', '?', '"', '\n'],
            (cleaned (generated sentenceRuntime "model.gguf".toList
              "hi".toList).response).getLast? ≠ some c) ∧
          ¬ "...".toList <:+ cleaned (generated sentenceRuntime "model.gguf".toList
            "hi".toList).response ∧
          ':' ∉ cleaned (generated sentenceRuntime "model.gguf".toList "hi".toList).response
      then cleaned (generated sentenceRuntime "model.gguf".toList "hi".toList).response ++ ['.']
      else cleaned (generated sentenceRuntime "model.gguf".toList "hi".toList).response) :=
  ⟨by decide, by decide, by decide, by decide,
   (generated_period_rule sentenceRuntime "model.gguf".toList "hi".toList
     sentenceRuntime_pieces (by decide)).2.2.1⟩

end LlamaBridge
